import Mathlib

/-!
# Verification of the undo-record-set subsystem (undorecordset.c)

A shallow embedding of `src/backend/access/undo/undorecordset.c`: the
chunk-header codec, the WAL opcode stream codec (insert/update entries),
the physical-space reservation loop, the insertion engine, the
close/release protocol and the recovery replay entry points.

Machine integers are modelled as `Nat`; bytes are `Nat` values kept below
256 by construction.  Pages are modelled as a byte function together with
the `pd_lower` field of the page header (the code uses `pd_lower` as an
insertion cursor; the remaining page-header fields are never read by this
file's code, so they are not modelled separately).  Multi-byte scalars
written with `memcpy` are laid out little-endian, as on the platforms the
code targets.

Quantities defined by headers that are not part of the provided sources
(`BLCKSZ`, `UndoLogBlockHeaderSize`, `UndoLogMaxSize`, the undo-pointer
arithmetic) are modelled from the spec and marked as such.
-/

/-- Page size in bytes.  PostgreSQL's default; the code only assumes
`BLCKSZ ≤ 0x8000` (assertion in `write_update_ops_header`). -/
def BLCKSZ : Nat := 8192

/-- Modelled from the spec: each page begins with a small fixed-size block
header; data lives in the usable area at or beyond this offset.  The value
is the standard page-header size. -/
def UndoLogBlockHeaderSize : Nat := 24

/-- Modelled from the spec: the hard per-log maximum size checked by
`reserve_physical_undo` before extending a log (its value is defined in a
header that is not part of the provided sources). -/
def UndoLogMaxSize : Nat := 2 ^ 34

/-- Usable bytes per page: everything after the block header. -/
def usableBytesPerPage : Nat := BLCKSZ - UndoLogBlockHeaderSize

/-- Modelled from the spec: number of usable bytes strictly before an
undo-log offset (decomposing the offset into full pages plus an in-page
position past the block header). -/
def undoOffsetToUsable (off : Nat) : Nat :=
  off / BLCKSZ * usableBytesPerPage + (off % BLCKSZ - UndoLogBlockHeaderSize)

/-- Modelled from the spec: the undo-log offset holding the n-th usable
byte. -/
def usableToUndoOffset (u : Nat) : Nat :=
  u / usableBytesPerPage * BLCKSZ + UndoLogBlockHeaderSize + u % usableBytesPerPage

/-- `UndoLogOffsetPlusUsableBytes`: advance an undo-log offset by `n`
usable bytes, skipping the block header of every page crossed.  Modelled
from the spec ("advance by N usable bytes, skipping page headers"); the
macro itself lives in a header that is not part of the provided sources. -/
def UndoLogOffsetPlusUsableBytes (off n : Nat) : Nat :=
  usableToUndoOffset (undoOffsetToUsable off + n)

/-- An undo record pointer: a backing-log number paired with a byte offset
inside that log (the spec's "value type pairing (log identifier, byte
offset)"). -/
structure UndoRecPtr where
  logno : Nat
  offset : Nat
deriving DecidableEq, Repr

/-- `MakeUndoRecPtr`. -/
def MakeUndoRecPtr (logno off : Nat) : UndoRecPtr := ⟨logno, off⟩

/-- `UndoRecPtrPlusUsableBytes`. -/
def UndoRecPtrPlusUsableBytes (p : UndoRecPtr) (n : Nat) : UndoRecPtr :=
  ⟨p.logno, UndoLogOffsetPlusUsableBytes p.offset n⟩

/-- `UndoRecPtrGetBlockNum` (on the offset part). -/
def UndoRecPtrGetBlockNum (off : Nat) : Nat := off / BLCKSZ

/-- `UndoRecPtrGetPageOffset` (on the offset part). -/
def UndoRecPtrGetPageOffset (off : Nat) : Nat := off % BLCKSZ

/-- A buffered page: raw bytes plus the `pd_lower` page-header field used
by the code as a page-local insertion cursor.  (The other page-header
fields are never read by undorecordset.c and are left out; byte writes
below `UndoLogBlockHeaderSize` are modelled as plain byte writes.) -/
structure Page where
  bytes : Nat → Nat
  pd_lower : Nat

/-- A page of zeroes. -/
def zeroPage : Page := { bytes := fun _ => 0, pd_lower := 0 }

/-- `memcpy(page + off, data, data.length)`. -/
def Page.write (p : Page) (off : Nat) (data : List Nat) : Page :=
  { p with
    bytes := fun i =>
      if off ≤ i ∧ i < off + data.length then data.getD (i - off) 0 else p.bytes i }

/-- Read `n` bytes starting at `off`. -/
def Page.readRange (p : Page) (off n : Nat) : List Nat :=
  (List.range n).map fun i => p.bytes (off + i)

/-- `PageInit(page, BLCKSZ, 0)`: a zeroed page whose `pd_lower` points
just past the page header. -/
def pageInit : Page := { bytes := fun _ => 0, pd_lower := UndoLogBlockHeaderSize }

/-- A pinned buffer: its buffer-pool handle (the C `Buffer` value, which
is distinct from the buffer's index in `urs->buffers`), the page tag
`BufferGetTag` reports, and the page contents. -/
structure Buf where
  handle : Nat
  logno : Nat
  block : Nat
  page : Page

/-- Little-endian bytes of a `uint64` (what `memcpy` from a
`UndoLogOffset` produces on the platforms the code targets). -/
def le8 (v : Nat) : List Nat :=
  [v % 256, v / 256 % 256, v / 256 ^ 2 % 256, v / 256 ^ 3 % 256,
   v / 256 ^ 4 % 256, v / 256 ^ 5 % 256, v / 256 ^ 6 % 256, v / 256 ^ 7 % 256]

/-- Little-endian bytes of a `uint32` (enum-sized field). -/
def le4 (v : Nat) : List Nat :=
  [v % 256, v / 256 % 256, v / 256 ^ 2 % 256, v / 256 ^ 3 % 256]

/-- Value of a little-endian byte string. -/
def leVal (bs : List Nat) : Nat :=
  bs.foldr (fun b acc => b + 256 * acc) 0

/-- `UndoRecordSetType` — a closed enumeration (spec §4.1). -/
inductive UndoRecordSetType where
  | URST_TRANSACTION
  | URST_FOO
deriving DecidableEq, Repr

/-- `urst_header_size`: size of the type-specific header.  (The `default:`
arm of the C switch raises a fatal configuration error for a tag outside
the closed enumeration; with the enumeration closed it is unreachable.) -/
def urst_header_size : UndoRecordSetType → Nat
  | .URST_TRANSACTION => 42
  | .URST_FOO => 8

/-- Numeric tag of a type (the enum value stored in the chunk header). -/
def urstTag : UndoRecordSetType → Nat
  | .URST_TRANSACTION => 0
  | .URST_FOO => 1

/-- `sizeof(UndoRecordSetChunkHeader)`: `UndoLogOffset size` (8) +
`UndoRecPtr previous_chunk` (8) + `UndoRecordSetType type` (4) + struct
padding (4) — the code's TODO notes the padding is included. -/
def UndoRecordSetChunkHeaderSize : Nat := 24

/-- On-disk bytes of a chunk header (fields laid out little-endian,
trailing struct padding zeroed). -/
def chunkHeaderBytes (size previous_chunk : Nat) (t : UndoRecordSetType) : List Nat :=
  le8 size ++ le8 previous_chunk ++ le4 (urstTag t) ++ [0, 0, 0, 0]

/-- `write_update_ops_header(ops, offset, size)`: the 4-byte header of an
"update" opcode entry — high bit set on the first byte, 15-bit page
offset, 16-bit length. -/
def write_update_ops_header (offset size : Nat) : List Nat :=
  [0x80 ||| (offset >>> 8), offset &&& 0xff, size >>> 8, size &&& 0xff]

/-- An "insert" opcode entry as the forward path attaches it to WAL
buffer data (`UndoInsert`): one length byte with the high bit clear,
then the literal bytes. -/
def encodeInsert (data : List Nat) : List Nat := data.length :: data

/-- The update-replay decode loop of `UndoUpdateInRecovery` (the
`while (ops < ops_end)` loop): skip insert-tagged entries, apply each
update-tagged entry to the page, with the code's corruption checks
(`ops + 4 >= ops_end` and `ops + size > ops_end`).  Structured with
explicit fuel; `applyUpdateOps` supplies enough fuel for the whole
stream (each loop step consumes at least one byte). -/
def applyUpdateOpsF : Nat → Page → List Nat → Except Unit Page
  | _, page, [] => .ok page
  | 0, page, _ :: _ => .ok page
  | fuel + 1, page, b :: rest =>
    if b &&& 0x80 = 0 then
      -- an insert entry: skip it (ops += *ops + 1)
      applyUpdateOpsF fuel page (rest.drop b)
    else
      match rest with
      | b1 :: b2 :: b3 :: b4 :: rest5 =>
        let offset := ((b &&& 0x7f) <<< 8) ||| b1
        let size := (b2 <<< 8) ||| b3
        if size > (b4 :: rest5).length then
          -- ops + size > ops_end: "corrupted undo update instruction"
          .error ()
        else
          applyUpdateOpsF fuel (page.write offset ((b4 :: rest5).take size))
            ((b4 :: rest5).drop size)
      | _ =>
        -- fewer than 5 bytes from the tag byte on, i.e. ops + 4 >= ops_end:
        -- "corrupted undo update instruction"
        .error ()

/-- Apply an update opcode stream to a page (`UndoUpdateInRecovery`'s
per-page loop). -/
def applyUpdateOps (page : Page) (ops : List Nat) : Except Unit Page :=
  applyUpdateOpsF ops.length page ops

/-- The insert-entry scanner of `UndoInsertInRecovery` (the
`while (ops < ops_end && *ops < 0x80)` loop), returning the decoded
entries and the unconsumed remainder of the stream; `.error` models
`elog(ERROR, "undo insert data corrupted")`. -/
def scanInsertEntriesF : Nat → List Nat → Except Unit (List (List Nat) × List Nat)
  | _, [] => .ok ([], [])
  | 0, ops => .ok ([], ops)
  | fuel + 1, b :: rest =>
    if b < 0x80 then
      if rest.length < b then .error ()
      else
        match scanInsertEntriesF fuel (rest.drop b) with
        | .ok (es, leftover) => .ok (rest.take b :: es, leftover)
        | .error e => .error e
    else .ok ([], b :: rest)

/-- Scan the insert-tagged prefix of an opcode stream. -/
def scanInsertEntries (ops : List Nat) : Except Unit (List (List Nat) × List Nat) :=
  scanInsertEntriesF ops.length ops

/-- An undo-log slot as `reserve_physical_undo` sees it: log number, the
shared `meta.insert` position and the authoritative end-of-space
(`slot->end`). -/
structure USlot where
  logno : Nat
  insert : Nat
  endSpace : Nat
deriving DecidableEq, Repr

/-- `UndoRecordSetChunk` bookkeeping: backing-log number, header offset,
and the one or two buffer-array indices of the page(s) holding the header
(`-1` = absent, as in the C sentinel). -/
structure UrsChunk where
  logno : Nat
  chunk_header_offset : Nat
  chunk_header_buffer_index : Int × Int
deriving DecidableEq, Repr

/-- The `UndoRecordSet` state (plus an `id` naming the object in the
process-wide live list, and a trace of `UndoLogMarkFull` calls). -/
structure Urs where
  id : Nat
  typ : UndoRecordSetType
  chunks : List UrsChunk
  buffers : List Buf
  previous_chunk : Nat
  need_chunk_header : Bool
  need_type_header : Bool
  type_header_size : Nat
  slot : Option USlot
  closed : Bool
  recent_end : Nat
  markedFull : List Nat

/-- Process-wide state: the live record-set list (`UndoRecordSetList`)
and the shared undo-log free list (`UndoLogPut` targets). -/
structure ProcEnv where
  live : List Nat
  freelist : List Nat
deriving DecidableEq, Repr

/-- `UndoCreate`: a fresh, zero-initialized record set with
`need_type_header = true`, pushed onto the process-wide live list. -/
def undoCreate (id : Nat) (typ : UndoRecordSetType) (env : ProcEnv) : Urs × ProcEnv :=
  ({ id := id, typ := typ, chunks := [], buffers := [], previous_chunk := 0,
     need_chunk_header := false, need_type_header := true,
     type_header_size := urst_header_size typ, slot := none, closed := false,
     recent_end := 0, markedFull := [] },
   { env with live := id :: env.live })

/-- `AtProcExit_UndoRecordSet`: `elog(PANIC, ...)` iff the live list is
non-empty. -/
def AtProcExit_UndoRecordSet (env : ProcEnv) : Bool := !env.live.isEmpty

/-- `UndoRelease`'s outcome: the record set afterwards, the process
state afterwards, the buffer handles that were unlocked and released,
and whether the record set's memory was freed. -/
structure ReleaseResult where
  urs : Urs
  env : ProcEnv
  unpinned : List Nat
  freed : Bool

/-- `UndoRelease`: unconditionally unlock/release every pinned buffer and
reset the pinned count; if (and only if) `closed`, also return every
chunk's backing log to the free list, remove the set from the live list
and free it. -/
def undoRelease (urs : Urs) (env : ProcEnv) : ReleaseResult :=
  let unpinned := urs.buffers.map (·.handle)
  let urs1 := { urs with buffers := [] }
  if urs.closed then
    { urs := urs1,
      env := { env with
                 freelist := env.freelist ++ urs.chunks.map (·.logno),
                 live := env.live.erase urs.id },
      unpinned := unpinned, freed := true }
  else
    { urs := urs1, env := env, unpinned := unpinned, freed := false }

/-- One step of `reserve_physical_undo`'s loop while a backing log is
active: either a reserved pointer (with the updated record set) or the
record set after the active log was found unusable (marked full, active
reference cleared) or was absent. -/
def reserveStep (urs : Urs) (data_size : Nat) : (UndoRecPtr × Urs) ⊕ Urs :=
  match urs.slot with
  | none => .inr urs
  | some sl =>
    let chunk_header_size := if urs.need_chunk_header then UndoRecordSetChunkHeaderSize else 0
    let type_header_size := if urs.need_type_header then urst_header_size urs.typ else 0
    let total_size := data_size + chunk_header_size + type_header_size
    let new_insert := UndoLogOffsetPlusUsableBytes sl.insert total_size
    -- the fast case: we already know there is enough space
    if new_insert ≤ urs.recent_end then .inl (MakeUndoRecPtr sl.logno sl.insert, urs)
    else
      -- re-read the authoritative end under the metadata lock
      let urs1 := { urs with recent_end := sl.endSpace }
      if new_insert ≤ sl.endSpace then .inl (MakeUndoRecPtr sl.logno sl.insert, urs1)
      else if new_insert ≤ UndoLogMaxSize then
        -- UndoLogAdjustPhysicalRange(logno, 0, new_insert)
        .inl (MakeUndoRecPtr sl.logno sl.insert,
              { urs1 with slot := some { sl with endSpace := max sl.endSpace new_insert } })
      else
        -- UndoLogMarkFull(slot); slot = NULL
        .inr { urs1 with slot := none, markedFull := urs1.markedFull ++ [sl.logno] }

/-- The new-chunk code at the bottom of `reserve_physical_undo`'s loop:
record that a fresh chunk header is needed, reset the cached end, make
the fresh log active, and append a chunk whose header offset is the fresh
log's insert position with both straddling-buffer indices absent. -/
def addChunk (urs : Urs) (f : USlot) : Urs :=
  { urs with need_chunk_header := true, recent_end := 0, slot := some f,
             chunks := urs.chunks ++
               [{ logno := f.logno, chunk_header_offset := f.insert,
                  chunk_header_buffer_index := (-1, -1) }] }

/-- `reserve_physical_undo`: loop until the active log has space,
switching to fresh logs (drawn from `supply`, standing in for
`UndoLogGetForPersistence`) as logs fill up; `none` only when the
modelled supply of fresh logs is exhausted. -/
def reserve_physical_undo (data_size : Nat) : List USlot → Urs → Option (UndoRecPtr × Urs)
  | supply, urs =>
    match reserveStep urs data_size with
    | .inl r => some r
    | .inr urs1 =>
      match supply with
      | [] => none
      | f :: rest => reserve_physical_undo data_size rest (addChunk urs1 f)

/-- The buffer-pinning loop of `UndoAllocate` (lines 521–562).  `urp` is
never advanced by the loop, so every iteration examines the same block —
reproduced faithfully.  `disk` abstracts `ReadBufferWithoutRelcache` in
`RBM_NORMAL` mode. -/
def pinLoopF (fuel : Nat) (disk : Nat → Nat → Page) (logno urpOff total : Nat)
    (acc : List Buf) : List Buf :=
  match fuel with
  | 0 => acc
  | fuel + 1 =>
    if total = 0 then acc
    else
      let block := UndoRecPtrGetBlockNum urpOff
      let offset := UndoRecPtrGetPageOffset urpOff
      let page := if offset = UndoLogBlockHeaderSize then pageInit else disk logno block
      let bytes_on_this_page := min (BLCKSZ - offset) total
      pinLoopF fuel disk logno urpOff (total - bytes_on_this_page)
        (acc ++ [⟨0, logno, block, page⟩])

/-- `UndoAllocate`: reserve physical space, recompute the header sizes,
check `Assert(urs->nbuffers == 0)` (`.error` = assertion violation), pin
the buffers and return a pointer to the first byte of the caller's data.
The outer `Option` is `none` only when the modelled fresh-log supply runs
out inside `reserve_physical_undo`. -/
def undoAllocate (disk : Nat → Nat → Page) (supply : List USlot) (urs : Urs)
    (data_size : Nat) : Option (Except Unit (UndoRecPtr × Urs)) :=
  match reserve_physical_undo data_size supply urs with
  | none => none
  | some (bg, urs1) =>
    let chunk_header_size := if urs1.need_chunk_header then UndoRecordSetChunkHeaderSize else 0
    let type_header_size := if urs1.need_type_header then urst_header_size urs1.typ else 0
    let total_size := data_size + chunk_header_size + type_header_size
    if urs1.buffers.length ≠ 0 then some (.error ())
    else
      let bufs := pinLoopF total_size disk bg.logno bg.offset total_size []
      some (.ok (UndoRecPtrPlusUsableBytes bg (chunk_header_size + type_header_size),
                 { urs1 with buffers := bufs }))

/-- `UndoInsertState`: the transient cursor of the insertion engine. -/
structure UndoInsertState where
  buffers : List Buf
  first_block_id : Int
  last_buffer_index : Int
  buffer_index : Nat
  insert : Nat

/-- `begin_append`. -/
def begin_append (buffers : List Buf) (first_block_id : Int) (urp : Nat) : UndoInsertState :=
  { buffers := buffers, first_block_id := first_block_id, last_buffer_index := -1,
    buffer_index := 0, insert := urp }

/-- The page-at-a-time loop of `append_bytes`: stamp `pd_lower` with the
current offset, copy the bytes, advance the insert position, and skip the
next page's block header when the page fills up.  (Marking dirty and WAL
buffer registration are pool/WAL side effects and carry no page state.)
Fuel: each iteration consumes at least one byte of `data`. -/
def append_go : Nat → UndoInsertState → List Nat → UndoInsertState
  | _, st, [] => st
  | 0, st, _ :: _ => st
  | fuel + 1, st, data =>
    let offset := UndoRecPtrGetPageOffset st.insert
    let bytes_on_this_page := min (BLCKSZ - offset) data.length
    let buffer := st.buffers.getD st.buffer_index ⟨0, 0, 0, zeroPage⟩
    let st1 := if st.last_buffer_index = Int.ofNat st.buffer_index then st
               else { st with last_buffer_index := Int.ofNat st.buffer_index }
    let page2 := Page.write { buffer.page with pd_lower := offset } offset
                   (data.take bytes_on_this_page)
    let st2 := { st1 with
                 buffers := st1.buffers.set st1.buffer_index { buffer with page := page2 },
                 insert := st1.insert + bytes_on_this_page }
    let st3 := if offset + bytes_on_this_page = BLCKSZ
               then { st2 with buffer_index := st2.buffer_index + 1,
                               insert := st2.insert + UndoLogBlockHeaderSize }
               else st2
    append_go fuel st3 (data.drop bytes_on_this_page)

/-- `append_bytes`. -/
def append_bytes (st : UndoInsertState) (data : List Nat) : UndoInsertState :=
  append_go data.length st data

/-- `UndoInsert`'s outcome: the record set afterwards, whether a chunk /
type header was emitted by this insertion, and the WAL buffer data
attached for them (insert-tagged opcode entries). -/
structure InsertResult where
  urs : Urs
  chunkHeaderEmitted : Bool
  typeHeaderEmitted : Bool
  walData : List Nat

/-- `UndoInsert`: append the pending chunk header (size 0, previous-chunk
pointer, type tag) and pending type header (zero-filled, `urst_header`
writes nothing) if needed, then the caller's data; attach each header
verbatim as insert-tagged WAL buffer data; advance the shared insert
pointer; clear both pending-header flags. -/
def undoInsert (urs : Urs) (first_block_id : Int) (data : List Nat) : InsertResult :=
  let sl := urs.slot.getD ⟨0, 0, 0⟩
  let st0 := begin_append urs.buffers first_block_id sl.insert
  let hdr := chunkHeaderBytes 0 urs.previous_chunk urs.typ
  let st1 := if urs.need_chunk_header then append_bytes st0 hdr else st0
  let wal1 := if urs.need_chunk_header then encodeInsert hdr else []
  let th := List.replicate urs.type_header_size 0
  let st2 := if urs.need_type_header then append_bytes st1 th else st1
  let wal2 := if urs.need_type_header then encodeInsert th else []
  let st3 := append_bytes st2 data
  { urs := { urs with
               buffers := st3.buffers,
               slot := some { sl with insert := st3.insert },
               need_chunk_header := false, need_type_header := false },
    chunkHeaderEmitted := urs.need_chunk_header,
    typeHeaderEmitted := urs.need_type_header,
    walData := wal1 ++ wal2 }

/-- `find_or_read_buffer`: linear scan of the pinned buffers for a
matching `(log, block)` tag; on miss, read (via `disk`, standing in for
`ReadBufferWithoutRelcache`), lock and append. -/
def find_or_read_buffer (disk : Nat → Nat → Nat × Page) (bufs : List Buf)
    (logno block : Nat) : Nat × List Buf :=
  match bufs.findIdx? (fun b => b.logno == logno && b.block == block) with
  | some i => (i, bufs)
  | none =>
    let hp := disk logno block
    (bufs.length, bufs ++ [⟨hp.1, logno, block, hp.2⟩])

/-- The loop body of `UndoPrepareToMarkClosed` for one chunk: pin the
buffer holding the chunk header, and the following buffer too when the
header straddles the page boundary
(`header_offset > BLCKSZ - sizeof(UndoLogOffset)`). -/
def prepareChunk (disk : Nat → Nat → Nat × Page) (acc : List UrsChunk × List Buf)
    (c : UrsChunk) : List UrsChunk × List Buf :=
  let header := c.chunk_header_offset
  let header_block := header / BLCKSZ
  let header_offset := header % BLCKSZ
  let r0 := find_or_read_buffer disk acc.2 c.logno header_block
  if header_offset ≤ BLCKSZ - 8 then
    (acc.1 ++ [{ c with chunk_header_buffer_index := (Int.ofNat r0.1, -1) }], r0.2)
  else
    let r1 := find_or_read_buffer disk r0.2 c.logno (header_block + 1)
    (acc.1 ++ [{ c with chunk_header_buffer_index := (Int.ofNat r0.1, Int.ofNat r1.1) }], r1.2)

/-- `UndoPrepareToMarkClosed`. -/
def undoPrepareToMarkClosed (disk : Nat → Nat → Nat × Page) (urs : Urs) : Urs :=
  let r := urs.chunks.foldl (prepareChunk disk) ([], urs.buffers)
  { urs with chunks := r.1, buffers := r.2 }

/-- WAL registration state: `XLogRegisterBuffer` calls as
(block-id argument, buffer handle), `XLogRegisterBufData` calls as
(block-id argument, payload bytes), and `MarkBufferDirty` calls. -/
structure XLogState where
  regBuffers : List (Nat × Nat)
  regData : List (Nat × List Nat)
  dirtied : List Nat
deriving DecidableEq, Repr

/-- The loop body of `UndoMarkClosed` for one chunk (`slotInsert` is the
chunk's backing log's current `meta.insert`): write the final size into
the on-page header (little-endian, split across two pages when it
straddles), and attach update opcodes plus literal bytes as WAL buffer
data.  The second-page arm reproduces the code as written: it registers
the buffer under `first_block_id + buffer` (the handle, not the index),
writes the remaining size bytes at page offset 0, and attaches an opcode
and literal bytes built from the FIRST page's offset and length. -/
def undoMarkClosedChunk (first_block_id : Nat) (slotInsert : Nat → Nat)
    (acc : List Buf × XLogState) (c : UrsChunk) : List Buf × XLogState :=
  let header := c.chunk_header_offset
  let insert := slotInsert c.logno
  let size := insert - header
  let header_offset := header % BLCKSZ
  let bytes_on_first_page := min (BLCKSZ - header_offset) 8
  let buffer_index := (c.chunk_header_buffer_index.1).toNat
  let buffer := acc.1.getD buffer_index ⟨0, 0, 0, zeroPage⟩
  let page1 := buffer.page.write header_offset ((le8 size).take bytes_on_first_page)
  let bufs1 := acc.1.set buffer_index { buffer with page := page1 }
  let x1 : XLogState :=
    { regBuffers := acc.2.regBuffers ++ [(first_block_id + buffer_index, buffer.handle)],
      regData := acc.2.regData ++
        [(first_block_id + buffer_index, write_update_ops_header header_offset bytes_on_first_page),
         (first_block_id + buffer_index, page1.readRange header_offset bytes_on_first_page)],
      dirtied := acc.2.dirtied ++ [buffer.handle] }
  if bytes_on_first_page < 8 then
    let buffer_index2 := (c.chunk_header_buffer_index.2).toNat
    let buffer2 := bufs1.getD buffer_index2 ⟨0, 0, 0, zeroPage⟩
    let page2 := buffer2.page.write 0 ((le8 size).drop bytes_on_first_page)
    let bufs2 := bufs1.set buffer_index2 { buffer2 with page := page2 }
    let x2 : XLogState :=
      { regBuffers := x1.regBuffers ++ [(first_block_id + buffer2.handle, buffer2.handle)],
        regData := x1.regData ++
          [(first_block_id + buffer_index2, write_update_ops_header header_offset bytes_on_first_page),
           (first_block_id + buffer_index2, page2.readRange header_offset bytes_on_first_page)],
        dirtied := x1.dirtied ++ [buffer2.handle] }
    (bufs2, x2)
  else (bufs1, x1)

/-- `UndoMarkClosed`: patch every chunk's header size field in place,
attach the update opcodes, and set `closed`. -/
def undoMarkClosed (first_block_id : Nat) (slotInsert : Nat → Nat) (urs : Urs) :
    Urs × XLogState :=
  let r := urs.chunks.foldl (undoMarkClosedChunk first_block_id slotInsert)
             (urs.buffers, ⟨[], [], []⟩)
  ({ urs with buffers := r.1, closed := true }, r.2)

/-- `XLogRedoAction`. -/
inductive XLogRedoAction where
  | BLK_NEEDS_REDO
  | BLK_DONE
  | BLK_RESTORED
  | BLK_NOTFOUND
deriving DecidableEq, Repr

/-- A registered block of a decoded WAL record as the replay entry points
see it: the registration flags, the redo action
`XLogReadBufferForRedoExtended` reports, the buffer contents it returns
(after any full-page-image restore), and the block's attached buffer
data. -/
structure DecodedBkpBlock where
  in_use : Bool
  dbIsUndo : Bool
  logno : Nat
  blkno : Nat
  will_init : Bool
  action : XLogRedoAction
  page : Page
  hasBlockData : Bool
  blockData : List Nat

/-- The resynchronization of the shared insert pointer from a restored
first page (`UndoInsertInRecovery` lines 816–823): default a zero
`pd_lower` to the block-header size, then point at
`BLCKSZ * blkno + pd_lower`. -/
def resyncInsertLocation (blkno : Nat) (p : Page) : Nat :=
  BLCKSZ * blkno + (if p.pd_lower = 0 then UndoLogBlockHeaderSize else p.pd_lower)

/-- `UndoUpdateInRecovery`: for every in-use undo-area block, apply the
attached update opcode stream to its page when it needs redo (skipping
insert-tagged entries); `.error` is the fatal corruption error. -/
def undoUpdateInRecovery : List DecodedBkpBlock → Except Unit (List Page)
  | [] => .ok []
  | block :: rest =>
    match undoUpdateInRecovery rest with
    | .error e => .error e
    | .ok pages =>
      if block.in_use && block.dbIsUndo then
        if block.action = .BLK_NEEDS_REDO then
          match applyUpdateOps block.page block.blockData with
          | .error e => .error e
          | .ok p => .ok (p :: pages)
        else .ok (block.page :: pages)
      else .ok pages

/-- Accumulator for the block-collection loop of `UndoInsertInRecovery`:
pinned pages in registration order (`none` = `BLK_NOTFOUND`), the backing
log identified from the first block, the log's shared state, the skip
flag, the attached opcode stream of the first block, and whether either
`Assert` in the loop failed. -/
structure RecoveryScan where
  nbuffers : Nat
  bufs : List (Option Page)
  logno : Nat
  slot : USlot
  skip : Bool
  ops : Option (List Nat)
  assertFailed : Bool

/-- One iteration of `UndoInsertInRecovery`'s block loop. -/
def recoveryScanBlock (acc : RecoveryScan) (block : DecodedBkpBlock) : RecoveryScan :=
  if block.in_use && block.dbIsUndo then
    let first := acc.nbuffers = 0
    let logno := if first then block.logno else acc.logno
    let af1 := acc.assertFailed || (!(decide first) && logno != block.logno)
    let past_this_block := (block.blkno + 1) * BLCKSZ
    let end1 := if acc.slot.endSpace < past_this_block then past_this_block
                else acc.slot.endSpace
    let rbmZero := block.will_init
    let pageOpt : Option Page :=
      if block.action = .BLK_NOTFOUND then none else some block.page
    let r2 : Nat × Option Page × Bool :=
      if block.action = .BLK_RESTORED ∧ first then
        let p := pageOpt.getD zeroPage
        let p1 := if p.pd_lower = 0 then { p with pd_lower := UndoLogBlockHeaderSize } else p
        (resyncInsertLocation block.blkno p, some p1, af1)
      else if first then
        (acc.slot.insert, pageOpt,
         af1 || (UndoRecPtrGetBlockNum acc.slot.insert != block.blkno))
      else (acc.slot.insert, pageOpt, af1)
    let skip1 := acc.skip || block.action = .BLK_NOTFOUND
    let pageOpt2 := if rbmZero then r2.2.1.map (fun _ => pageInit) else r2.2.1
    let ops1 := if first then (if block.hasBlockData then some block.blockData else none)
                else acc.ops
    { nbuffers := acc.nbuffers + 1, bufs := acc.bufs ++ [pageOpt2], logno := logno,
      slot := { logno := logno, insert := r2.1, endSpace := end1 },
      skip := skip1, ops := ops1, assertFailed := r2.2.2 }
  else acc

/-- Outcome of the insert-entry replay loop of `UndoInsertInRecovery`:
the insert state (absent when `begin_append` was skipped), the
accumulated header byte count, whether `append_bytes` was invoked with no
insert state (the code does this when `skip` is set — in C it runs on an
uninitialized `UndoInsertState`, which is undefined behavior; here the
attempt is recorded and no page is written), and whether the fatal
"undo insert data corrupted" error was raised. -/
structure ReplayOpsResult where
  state : Option UndoInsertState
  header_size : Nat
  uninitAppend : Bool
  corrupt : Bool

/-- The `while (ops < ops_end && *ops < 0x80)` loop of
`UndoInsertInRecovery`: replay each insert-tagged entry through
`append_bytes` and count its bytes in `header_size`. -/
def replayInsertOpsF : Nat → Option UndoInsertState → Nat → Bool → List Nat →
    ReplayOpsResult
  | _, st, hsz, ub, [] => ⟨st, hsz, ub, false⟩
  | 0, st, hsz, ub, ops => ⟨st, hsz, ub, ops.length != 0⟩
  | fuel + 1, st, hsz, ub, b :: rest =>
    if b < 0x80 then
      if rest.length < b then ⟨st, hsz, ub, true⟩
      else
        replayInsertOpsF fuel (st.map fun s => append_bytes s (rest.take b))
          (hsz + b) (ub || st.isNone) (rest.drop b)
    else ⟨st, hsz, ub, false⟩

/-- The full outcome of `UndoInsertInRecovery`. -/
structure RecoveryInsertResult where
  scan : RecoveryScan
  finalState : Option UndoInsertState
  header_size : Nat
  uninitAppend : Bool
  corrupt : Bool
  result : UndoRecPtr
  insertAfter : Nat

/-- `UndoInsertInRecovery`: collect the registered undo blocks (extending
the log's physical range, resynchronizing or checking the insert pointer
on the first block, noting `BLK_NOTFOUND` in `skip`), replay the
insert-tagged header entries and — unless skipping — the external
payload, return a pointer to the first payload byte, and advance the
shared insert pointer by the header bytes plus the payload length. -/
def undoInsertInRecovery (blocks : List DecodedBkpBlock) (slot : USlot)
    (data : List Nat) : RecoveryInsertResult :=
  let scan := blocks.foldl recoveryScanBlock
    { nbuffers := 0, bufs := [], logno := slot.logno, slot := slot, skip := false,
      ops := none, assertFailed := false }
  let st0 : Option UndoInsertState :=
    if scan.skip then none
    else some (begin_append
      (scan.bufs.map fun o => ⟨0, scan.logno, 0, o.getD zeroPage⟩) (-1) scan.slot.insert)
  let r : ReplayOpsResult :=
    match scan.ops with
    | some ops =>
      let r1 := replayInsertOpsF ops.length st0 0 false ops
      if scan.skip then r1
      else { r1 with state := r1.state.map fun s => append_bytes s data }
    | none => ⟨st0, 0, false, false⟩
  { scan := scan, finalState := r.state, header_size := r.header_size,
    uninitAppend := r.uninitAppend, corrupt := r.corrupt,
    result := UndoRecPtrPlusUsableBytes (MakeUndoRecPtr scan.logno scan.slot.insert)
                r.header_size,
    insertAfter := UndoLogOffsetPlusUsableBytes scan.slot.insert
                     (r.header_size + data.length) }

/-- One caller cycle: `UndoAllocate` (drawing fresh logs from `supply`),
`UndoInsert`, `UndoRelease`. -/
structure CycleInput where
  supply : List USlot
  data : List Nat

/-- Run a sequence of allocate/insert/release cycles, returning for each
cycle whether its insertion emitted the type header (`none` when a cycle
could not reserve space or failed the allocation assertion). -/
def runCyclesF (disk : Nat → Nat → Page) (urs : Urs) :
    List CycleInput → Option (List Bool × Urs)
  | [] => some ([], urs)
  | ci :: rest =>
    match undoAllocate disk ci.supply urs ci.data.length with
    | none => none
    | some (.error _) => none
    | some (.ok (_, urs1)) =>
      let ir := undoInsert urs1 0 ci.data
      let rr := undoRelease ir.urs ⟨[], []⟩
      match runCyclesF disk rr.urs rest with
      | none => none
      | some (bs, ursF) => some (ir.typeHeaderEmitted :: bs, ursF)

/-- Disk contents for the concrete close scenario: log 3, block 0 is the
buffer with pool handle 101, block 1 the buffer with pool handle 202,
both initially zero. -/
def mcDisk : Nat → Nat → Nat × Page := fun _ block =>
  (if block = 0 then 101 else 202, zeroPage)

/-- Concrete close scenario: a record set with one chunk of log 3 whose
header starts 2 bytes before the end of block 0 (offset 8190), so the
8-byte size field straddles the page boundary. -/
def mcUrs0 : Urs :=
  { id := 1, typ := .URST_FOO,
    chunks := [{ logno := 3, chunk_header_offset := 8190,
                 chunk_header_buffer_index := (-1, -1) }],
    buffers := [], previous_chunk := 0, need_chunk_header := false,
    need_type_header := false, type_header_size := 8, slot := none,
    closed := false, recent_end := 0, markedFull := [] }

/-- The backing log's insert position at close time: the final chunk size
is `2 ^ 32`, whose little-endian bytes are `[0,0,0,0,1,0,0,0]`. -/
def mcSlotInsert : Nat → Nat := fun _ => 8190 + 2 ^ 32

/-- The scenario after `UndoPrepareToMarkClosed` (pins blocks 0 and 1 of
log 3 and records buffer indices (0, 1) for the straddling header). -/
def mcPrepared : Urs := undoPrepareToMarkClosed mcDisk mcUrs0

/-- The scenario after `UndoMarkClosed` with `first_block_id = 5`. -/
def mcClosed : Urs × XLogState := undoMarkClosed 5 mcSlotInsert mcPrepared

/-- Default buffer for list projections in concrete statements. -/
def noBuf : Buf := ⟨0, 0, 0, zeroPage⟩

/-- A concrete closed record set for release witnesses: one pinned buffer
(handle 7), one chunk backed by log 3, `closed = true`. -/
def c6UrsClosed : Urs :=
  { id := 1, typ := .URST_FOO,
    chunks := [{ logno := 3, chunk_header_offset := 24,
                 chunk_header_buffer_index := (-1, -1) }],
    buffers := [⟨7, 3, 0, zeroPage⟩], previous_chunk := 0,
    need_chunk_header := false, need_type_header := false,
    type_header_size := 8, slot := none, closed := true,
    recent_end := 0, markedFull := [] }

/-- A concrete process state: record set 1 live, log 9 on the free
list. -/
def c6Env : ProcEnv := ⟨[1], [9]⟩

/-- Concrete append scenario for the page-cursor claim: one zero page,
insert position 24 (start of the usable area of block 0), ten bytes
written. -/
def c8After : UndoInsertState :=
  append_bytes (begin_append [⟨0, 3, 0, zeroPage⟩] 0 24) [1, 2, 3, 4, 5, 6, 7, 8, 9, 10]

/-- External payload for the recovery-replay scenario. -/
def c7Data : List Nat := [9, 9, 9, 9, 9]

/-- A WAL record referencing one undo block of log 3 that recovery
reports as already discarded (`BLK_NOTFOUND`), carrying a 24-byte
insert-tagged chunk header as attached buffer data. -/
def c7Block : DecodedBkpBlock :=
  { in_use := true, dbIsUndo := true, logno := 3, blkno := 0, will_init := false,
    action := .BLK_NOTFOUND, page := zeroPage, hasBlockData := true,
    blockData := encodeInsert (List.replicate 24 0) }

/-- The same record with the block found and needing redo. -/
def c7BlockOk : DecodedBkpBlock := { c7Block with action := .BLK_NEEDS_REDO }

/-- The backing log's shared state when the record is replayed. -/
def c7Slot : USlot := ⟨3, 24, 8192⟩

/-- Replay of the record in the block-not-found case. -/
def c7Skip : RecoveryInsertResult := undoInsertInRecovery [c7Block] c7Slot c7Data

/-- Replay of the record in the ordinary case. -/
def c7Ok : RecoveryInsertResult := undoInsertInRecovery [c7BlockOk] c7Slot c7Data

/-- A record set sitting on the reservation fast path: active log 7 at
insert position 24, cached end of space 1 MiB, no pending headers. -/
def c5FastUrs : Urs :=
  { id := 9, typ := .URST_FOO, chunks := [], buffers := [], previous_chunk := 0,
    need_chunk_header := false, need_type_header := false, type_header_size := 8,
    slot := some ⟨7, 24, 1048576⟩, closed := false, recent_end := 1048576,
    markedFull := [] }

/-- Disk stub for allocation scenarios. -/
def c5Disk : Nat → Nat → Page := fun _ _ => zeroPage

/-- Allocation-discipline trace: a fresh record set. -/
def c10U0 : Urs := (undoCreate 2 .URST_FOO ⟨[], []⟩).1

/-- One fresh backing log for the trace. -/
def c10Supply : List USlot := [⟨7, 24, 1048576⟩]

/-- Call 1: `UndoAllocate` for 10 bytes (plus pending chunk and type
headers). -/
def c10A1 : Option (Except Unit (UndoRecPtr × Urs)) :=
  undoAllocate c5Disk c10Supply c10U0 10

/-- The record set after call 1. -/
def c10U1 : Urs :=
  match c10A1 with
  | some (.ok (_, u)) => u
  | _ => c10U0

/-- Call 1b (not part of the main trace): a second `UndoAllocate` right
after call 1, with no release in between. -/
def c10A1b : Option (Except Unit (UndoRecPtr × Urs)) :=
  undoAllocate c5Disk [] c10U1 5

/-- Call 2: `UndoInsert` of the 10 bytes. -/
def c10U2 : Urs := (undoInsert c10U1 0 (List.replicate 10 1)).urs

/-- Call 3: `UndoRelease` (resets the pinned buffers; the set is not
closed, so nothing else happens). -/
def c10U3 : Urs := (undoRelease c10U2 ⟨[], []⟩).urs

/-- Call 4: `UndoAllocate` for 0 bytes — no headers are pending any
more, so the total size is 0 and no buffer is pinned. -/
def c10A2 : Option (Except Unit (UndoRecPtr × Urs)) :=
  undoAllocate c5Disk [] c10U3 0

/-- The record set after call 4. -/
def c10U4 : Urs :=
  match c10A2 with
  | some (.ok (_, u)) => u
  | _ => c10U3

/-- Call 5: another `UndoAllocate`, with no `UndoRelease` since call
4. -/
def c10A3 : Option (Except Unit (UndoRecPtr × Urs)) :=
  undoAllocate c5Disk [] c10U4 5

/-- Whether an `Except` result is a success (used to state concrete
outcomes without binders). -/
def exOk {A : Type} (e : Except Unit A) : Bool :=
  match e with
  | .ok _ => true
  | .error _ => false

set_option maxRecDepth 4000 in
theorem lor_128_eq : ∀ x : Nat, x < 128 → 128 ||| x = 128 + x := by decide

set_option maxRecDepth 4000 in
theorem land_128_eq : ∀ x : Nat, x < 128 → (128 + x) &&& 128 = 128 := by decide

set_option maxRecDepth 4000 in
theorem land_127_eq : ∀ x : Nat, x < 128 → (128 + x) &&& 127 = x := by decide

theorem testBit_mul_pow_add (x b k : Nat) (hb : b < 2 ^ k) (i : Nat) :
    (x * 2 ^ k + b).testBit i = if i < k then b.testBit i else x.testBit (i - k) := by
  rcases lt_or_ge i k with h | h
  · rw [if_pos h]
    rw [Nat.testBit_to_div_mod, Nat.testBit_to_div_mod]
    have hsplit : x * 2 ^ k + b = 2 ^ i * (x * 2 ^ (k - i - 1) * 2) + b := by
      have h2 : (2 : Nat) ^ k = 2 ^ i * (2 ^ (k - i - 1) * 2) := by
        rw [← Nat.pow_succ, ← Nat.pow_add]
        congr 1
        omega
      rw [h2]; ring
    rw [hsplit, Nat.mul_add_div (Nat.pos_pow_of_pos i (by norm_num))]
    have hmod : (x * 2 ^ (k - i - 1) * 2 + b / 2 ^ i) % 2 = b / 2 ^ i % 2 := by omega
    rw [hmod]
  · rw [if_neg (by omega)]
    rw [Nat.testBit_to_div_mod, Nat.testBit_to_div_mod]
    have h2 : (2 : Nat) ^ i = 2 ^ k * 2 ^ (i - k) := by
      rw [← Nat.pow_add]; congr 1; omega
    have h3 : (x * 2 ^ k + b) / 2 ^ k = x := by
      rw [Nat.mul_comm x, Nat.mul_add_div (Nat.pos_pow_of_pos k (by norm_num))]
      rw [Nat.div_eq_of_lt hb]
      omega
    rw [h2, ← Nat.div_div_eq_div_mul, h3]

theorem shiftLeft_lor_eq_add (x b k : Nat) (hb : b < 2 ^ k) :
    (x <<< k) ||| b = x * 2 ^ k + b := by
  apply Nat.eq_of_testBit_eq
  intro i
  rw [Nat.testBit_lor, Nat.testBit_shiftLeft, testBit_mul_pow_add x b k hb i]
  rcases lt_or_ge i k with h | h
  · rw [if_pos h]
    simp [Nat.not_le_of_lt h]
  · rw [if_neg (by omega)]
    have hbf : b.testBit i = false :=
      Nat.testBit_eq_false_of_lt (lt_of_lt_of_le hb (Nat.pow_le_pow_right (by norm_num) h))
    simp [h, hbf]

theorem land_two_pow_sub_one (x k : Nat) : x &&& (2 ^ k - 1) = x % 2 ^ k := by
  apply Nat.eq_of_testBit_eq
  intro i
  rw [Nat.testBit_land, Nat.testBit_two_pow_sub_one, Nat.testBit_mod_two_pow]
  rw [Bool.and_comm]

/-- The bytes `write_update_ops_header` produces, in arithmetic form:
offsets fit in 15 bits and lengths in 16 bits. -/
theorem write_update_ops_header_eq (offset size : Nat)
    (h15 : offset < 2 ^ 15) (h16 : size < 2 ^ 16) :
    write_update_ops_header offset size =
      [128 + offset / 256, offset % 256, size / 256, size % 256] := by
  have hdiv : offset / 256 < 128 := Nat.div_lt_of_lt_mul (by omega)
  have h1 : (0x80 : Nat) ||| (offset >>> 8) = 128 + offset / 256 := by
    rw [Nat.shiftRight_eq_div_pow]
    have h256 : (2 : Nat) ^ 8 = 256 := by norm_num
    rw [h256]
    exact lor_128_eq _ hdiv
  have h2 : offset &&& 0xff = offset % 256 := by
    have := land_two_pow_sub_one offset 8
    norm_num at this
    exact this
  have h3 : size >>> 8 = size / 256 := by
    rw [Nat.shiftRight_eq_div_pow]
  have h4 : size &&& 0xff = size % 256 := by
    have := land_two_pow_sub_one size 8
    norm_num at this
    exact this
  simp only [write_update_ops_header, h1, h2, h3, h4]

theorem applyUpdateOpsF_update_step (fuel : Nat) (page : Page) (b0 b1 b2 b3 b4 : Nat)
    (rest : List Nat) (hb : ¬ (b0 &&& 0x80 = 0)) :
    applyUpdateOpsF (fuel + 1) page (b0 :: b1 :: b2 :: b3 :: b4 :: rest) =
      (if ((b2 <<< 8) ||| b3) > (b4 :: rest).length then .error ()
       else applyUpdateOpsF fuel
          (page.write (((b0 &&& 0x7f) <<< 8) ||| b1) ((b4 :: rest).take ((b2 <<< 8) ||| b3)))
          ((b4 :: rest).drop ((b2 <<< 8) ||| b3))) := by
  simp only [applyUpdateOpsF]
  rw [if_neg hb]

theorem applyUpdateOpsF_short_err (fuel : Nat) (page : Page) (b0 : Nat)
    (rest : List Nat) (hb : ¬ (b0 &&& 0x80 = 0)) (hlen : rest.length < 4) :
    applyUpdateOpsF (fuel + 1) page (b0 :: rest) = .error () := by
  match rest with
  | [] => simp only [applyUpdateOpsF]; rw [if_neg hb]
  | [a] => simp only [applyUpdateOpsF]; rw [if_neg hb]
  | [a, b] => simp only [applyUpdateOpsF]; rw [if_neg hb]
  | [a, b, c] => simp only [applyUpdateOpsF]; rw [if_neg hb]
  | a :: b :: c :: d :: t => simp only [List.length_cons] at hlen; omega

/-- The first byte of an encoded update entry has its high bit set. -/
theorem update_first_byte_high (offset : Nat) (h15 : offset < 2 ^ 15) :
    ¬ ((128 + offset / 256) &&& 0x80 = 0) := by
  have hdiv : offset / 256 < 128 := Nat.div_lt_of_lt_mul (by omega)
  rw [land_128_eq _ hdiv]
  omega

/-- Decoding the two offset bytes of an update entry gives back the
offset. -/
theorem decode_update_offset (offset : Nat) (h15 : offset < 2 ^ 15) :
    (((128 + offset / 256) &&& 0x7f) <<< 8) ||| (offset % 256) = offset := by
  have hdiv : offset / 256 < 128 := Nat.div_lt_of_lt_mul (by omega)
  have h7f : (0x7f : Nat) = 127 := rfl
  rw [h7f, land_127_eq _ hdiv]
  rw [shiftLeft_lor_eq_add _ _ 8 (by have := Nat.mod_lt offset (show 0 < 256 by norm_num); norm_num; omega)]
  have h256 : (2 : Nat) ^ 8 = 256 := by norm_num
  rw [h256]
  omega

/-- Decoding the two length bytes of an update entry gives back the
length. -/
theorem decode_update_size (size : Nat) :
    ((size / 256) <<< 8) ||| (size % 256) = size := by
  rw [shiftLeft_lor_eq_add _ _ 8 (by have := Nat.mod_lt size (show 0 < 256 by norm_num); norm_num; omega)]
  have h256 : (2 : Nat) ^ 8 = 256 := by norm_num
  rw [h256]
  omega

/-- A single well-formed update entry with a positive length decodes and
applies as an in-place overwrite of the encoded range. -/
theorem applyUpdateOps_single (offset size : Nat) (data : List Nat) (page : Page)
    (h15 : offset < 2 ^ 15) (h16 : size < 2 ^ 16) (hlen : data.length = size)
    (h1 : 1 ≤ size) :
    applyUpdateOps page (write_update_ops_header offset size ++ data) =
      .ok (page.write offset data) := by
  subst hlen
  rw [write_update_ops_header_eq offset _ h15 h16]
  obtain ⟨d0, data', rfl⟩ : ∃ d0 data', data = d0 :: data' := by
    cases data with
    | nil => simp at h1
    | cons a t => exact ⟨a, t, rfl⟩
  unfold applyUpdateOps
  simp only [List.cons_append, List.nil_append, List.length_cons]
  rw [applyUpdateOpsF_update_step _ _ _ _ _ _ _ _ (update_first_byte_high offset h15)]
  rw [decode_update_offset offset h15, decode_update_size (data'.length + 1)]
  simp only [List.length_cons]
  rw [if_neg (by omega : ¬ (data'.length + 1 > data'.length + 1))]
  rw [List.take_succ_cons, List.drop_succ_cons, List.take_length, List.drop_length]
  simp only [applyUpdateOpsF]

/-- Insert entries round-trip through the replay-side scanner for all
lengths 0–127. -/
theorem scanInsert_roundtrip (data : List Nat) (h : data.length ≤ 127) :
    scanInsertEntries (encodeInsert data) = .ok ([data], []) := by
  unfold scanInsertEntries encodeInsert
  simp only [List.length_cons]
  simp only [scanInsertEntriesF]
  rw [if_pos (by omega : data.length < 0x80)]
  rw [if_neg (lt_irrefl data.length)]
  rw [List.drop_length]
  simp only [scanInsertEntriesF]
  rw [List.take_length]

/-- **C3** (amended: the update half of the claim additionally requires a
positive length `1 ≤ S`, because the decoder rejects a length-0 update
entry whose header ends the stream — the only change the counterexample
forces): encoding a byte string of length 0–127 as an insert entry and
decoding it with the replay-side scanner yields the original length and
bytes; and for every update entry encoded at a valid offset `O` and
positive length `S` (`O ≥` minimum in-page data offset, `O + S ≤ BLCKSZ`),
decoding it and applying it to a copy of a page overwrites exactly bytes
`[O, O+S)` with the literal bytes and leaves every other byte of the page
unchanged. -/
theorem C3_opcode_stream_roundtrip :
    (∀ data : List Nat, data.length ≤ 127 →
        scanInsertEntries (encodeInsert data) = .ok ([data], [])) ∧
    (∀ (offset size : Nat) (data : List Nat) (page : Page),
        UndoLogBlockHeaderSize ≤ offset → offset + size ≤ BLCKSZ →
        data.length = size → 1 ≤ size →
        applyUpdateOps page (write_update_ops_header offset size ++ data) =
            .ok (page.write offset data) ∧
          ∀ i, (page.write offset data).bytes i =
              if offset ≤ i ∧ i < offset + size then data.getD (i - offset) 0
              else page.bytes i) := by
  constructor
  · exact scanInsert_roundtrip
  · intro offset size data page hlo hhi hlen h1
    have hB : BLCKSZ = 8192 := rfl
    have h15 : offset < 2 ^ 15 := by omega
    have h16 : size < 2 ^ 16 := by omega
    refine ⟨applyUpdateOps_single offset size data page h15 h16 hlen h1, ?_⟩
    intro i
    subst hlen
    rfl

/-- **C3** counterexample: the update entry encoded at the valid offset
24 with length 0 and no literal bytes satisfies the claim's validity
bounds, yet the replay-side decoder raises the fatal corruption error
instead of applying the (empty) overwrite. -/
theorem C3_opcode_stream_roundtrip_cex :
    UndoLogBlockHeaderSize ≤ 24 ∧ 24 + 0 ≤ BLCKSZ ∧
      applyUpdateOps zeroPage (write_update_ops_header 24 0 ++ []) = .error () :=
  ⟨by decide, by decide, rfl⟩

/-- Witness for C3 at concrete inputs. -/
theorem C3_opcode_stream_roundtrip_witness :
    scanInsertEntries (encodeInsert [1, 2, 3]) = .ok ([[1, 2, 3]], []) ∧
    applyUpdateOps zeroPage (write_update_ops_header 24 2 ++ [7, 8]) =
      .ok (zeroPage.write 24 [7, 8]) :=
  ⟨C3_opcode_stream_roundtrip.1 [1, 2, 3] (by decide),
   (C3_opcode_stream_roundtrip.2 24 2 [7, 8] zeroPage (by decide) (by decide) rfl
      (by decide)).1⟩

/-- **C4** (amended: the code additionally rejects an update entry whose
4 header bytes are the last 4 bytes of the stream — its boundary check is
`ops + 4 >= ops_end`, not `>` — so a length-0 update followed by nothing
errors too; this is the only change the counterexample forces): the
update-replay decode loop raises its fatal corruption error iff an update
entry's fields would read past the end of the opcode stream or fewer than
5 bytes remain at the update header; an update entry with a positive
declared length whose literal run ends at or before the stream end
(including exactly at it) is accepted. -/
theorem C4_update_replay_bounds :
    (∀ (offset size : Nat) (data : List Nat) (page : Page),
        offset < 2 ^ 15 → size < 2 ^ 16 → data.length = size → 1 ≤ size →
        ∃ p, applyUpdateOps page (write_update_ops_header offset size ++ data) = .ok p) ∧
    (∀ (offset : Nat) (page : Page), offset < 2 ^ 15 →
        applyUpdateOps page (write_update_ops_header offset 0) = .error ()) ∧
    (∀ (b0 : Nat) (rest : List Nat) (page : Page),
        ¬ (b0 &&& 0x80 = 0) → rest.length < 4 →
        applyUpdateOps page (b0 :: rest) = .error ()) ∧
    (∀ (offset size : Nat) (data : List Nat) (page : Page),
        offset < 2 ^ 15 → size < 2 ^ 16 → data.length < size →
        applyUpdateOps page (write_update_ops_header offset size ++ data) = .error ()) := by
  refine ⟨?_, ?_, ?_, ?_⟩
  · intro offset size data page h15 h16 hlen h1
    exact ⟨page.write offset data, applyUpdateOps_single offset size data page h15 h16 hlen h1⟩
  · intro offset page h15
    rw [write_update_ops_header_eq offset 0 h15 (by norm_num)]
    unfold applyUpdateOps
    exact applyUpdateOpsF_short_err _ page _ _ (update_first_byte_high offset h15) (by simp)
  · intro b0 rest page hb hlen
    unfold applyUpdateOps
    exact applyUpdateOpsF_short_err _ page b0 rest hb hlen
  · intro offset size data page h15 h16 hlt
    rw [write_update_ops_header_eq offset size h15 h16]
    cases data with
    | nil =>
      unfold applyUpdateOps
      simp only [List.append_nil]
      exact applyUpdateOpsF_short_err _ page _ _ (update_first_byte_high offset h15) (by simp)
    | cons d0 data' =>
      unfold applyUpdateOps
      simp only [List.cons_append, List.nil_append, List.length_cons]
      rw [applyUpdateOpsF_update_step _ _ _ _ _ _ _ _ (update_first_byte_high offset h15)]
      rw [decode_update_size size]
      rw [if_pos (by simp only [List.length_cons] at hlt ⊢; omega)]

/-- **C4** counterexample: an update entry whose 4 header bytes are the
last 4 bytes of the stream, with declared length 0 — its fields read and
write nothing past the stream end, so the claim says it is accepted — is
rejected with the fatal corruption error (`ops + 4 >= ops_end` uses `>=`,
not `>`). -/
theorem C4_update_replay_bounds_cex :
    (write_update_ops_header 30 0).length = 4 ∧
      applyUpdateOps zeroPage (write_update_ops_header 30 0) = .error () :=
  ⟨rfl, rfl⟩

/-- Witness for C4 at concrete inputs. -/
theorem C4_update_replay_bounds_witness :
    exOk (applyUpdateOps zeroPage (write_update_ops_header 100 1 ++ [9])) = true ∧
      applyUpdateOps zeroPage (write_update_ops_header 100 2 ++ [9]) = .error () := by
  constructor
  · obtain ⟨p, hp⟩ :=
      C4_update_replay_bounds.1 100 1 [9] zeroPage (by decide) (by decide) rfl (by decide)
    rw [hp]
    rfl
  · exact C4_update_replay_bounds.2.2.2 100 2 [9] zeroPage (by decide) (by decide) (by decide)

/-- **C1** — evaluation of `UndoMarkClosed` at the failing input (a
chunk header straddling the page boundary at offset 8190, final size
`2 ^ 32`): the first 2 size bytes land at 8190 on the first page as the
claim says, but the remaining 6 bytes are written at page offset 0 of
the next page — `memcpy(BufferGetPage(buffer), ...)` — not at the start
of the usable area (offset `UndoLogBlockHeaderSize`) where `append_bytes`
put the header's continuation, so reading the header bytes back across
both pages yields 0, not the chunk size. -/
theorem C1_mark_closed_straddle_bug :
    mcClosed.1.closed = true ∧
    mcPrepared.chunks =
      [{ logno := 3, chunk_header_offset := 8190,
         chunk_header_buffer_index := (0, 1) }] ∧
    (mcClosed.1.buffers.getD 0 noBuf).page.readRange 8190 2 = [0, 0] ∧
    (mcClosed.1.buffers.getD 1 noBuf).page.readRange 0 6 = [0, 0, 1, 0, 0, 0] ∧
    (mcClosed.1.buffers.getD 1 noBuf).page.readRange UndoLogBlockHeaderSize 6 =
      [0, 0, 0, 0, 0, 0] ∧
    leVal ((mcClosed.1.buffers.getD 0 noBuf).page.readRange 8190 2 ++
           (mcClosed.1.buffers.getD 1 noBuf).page.readRange UndoLogBlockHeaderSize 6) = 0 ∧
    mcSlotInsert 3 - 8190 = 2 ^ 32 ∧
    decide (leVal ((mcClosed.1.buffers.getD 0 noBuf).page.readRange 8190 2 ++
           (mcClosed.1.buffers.getD 1 noBuf).page.readRange UndoLogBlockHeaderSize 6) =
        mcSlotInsert 3 - 8190) = false := by
  refine ⟨rfl, by decide, by decide, by decide, by decide, by decide, by decide, by decide⟩

/-- **C2** — evaluation of `UndoMarkClosed`'s WAL registration at the
same straddling input: the second touched page is registered under
`first_block_id + buffer` (the buffer-pool handle 202, giving block id
207) instead of `first_block_id + buffer_index` (block id 6); the opcode
attached for it is built from the FIRST page's offset 8190 and length 2
rather than the second page's offset and remaining length 6; and the
literal bytes attached for it are read from the second page at offset
8190 (zeroes), not the bytes `[0,0,1,0,0,0]` actually patched at
offset 0. -/
theorem C2_mark_closed_wal_registration_bug :
    mcClosed.2.regBuffers = [(5 + 0, 101), (5 + 202, 202)] ∧
    decide (5 + 202 = 5 + 1) = false ∧
    mcClosed.2.regData =
      [(5 + 0, write_update_ops_header 8190 2), (5 + 0, [0, 0]),
       (5 + 1, write_update_ops_header 8190 2), (5 + 1, [0, 0])] ∧
    write_update_ops_header 8190 2 = [159, 254, 0, 2] ∧
    (mcClosed.1.buffers.getD 1 noBuf).page.readRange 0 6 = [0, 0, 1, 0, 0, 0] ∧
    decide (([0, 0] : List Nat) = [0, 0, 1, 0, 0, 0]) = false := by
  refine ⟨by decide, by decide, by decide, by decide, by decide, by decide⟩

/-- **C6**: `UndoRelease` on every call unlocks and releases every
pinned buffer of the record set and resets the pinned count to zero; and
it returns each chunk's backing log to the free list, removes the set
from the process-wide live list and frees it if and only if `closed` is
true — with `closed = false` the process state is left untouched (no
backing log returned, the set still on the live list) and the set is not
freed. -/
theorem C6_release :
    ∀ (urs : Urs) (env : ProcEnv),
      (undoRelease urs env).unpinned = urs.buffers.map (·.handle) ∧
      (undoRelease urs env).urs.buffers = [] ∧
      (urs.closed = true →
        (undoRelease urs env).env.freelist = env.freelist ++ urs.chunks.map (·.logno) ∧
        (undoRelease urs env).env.live = env.live.erase urs.id ∧
        (undoRelease urs env).freed = true) ∧
      (urs.closed = false →
        (undoRelease urs env).env = env ∧
        (undoRelease urs env).freed = false) := by
  intro urs env
  unfold undoRelease
  cases h : urs.closed <;> simp [h]

/-- Witness for C6: releasing the concrete closed set returns its log to
the free list, drops it from the live list, frees it, and resets its
pinned buffers. -/
theorem C6_release_witness :
    (undoRelease c6UrsClosed c6Env).unpinned = c6UrsClosed.buffers.map (·.handle) ∧
    (undoRelease c6UrsClosed c6Env).urs.buffers = [] ∧
    (undoRelease c6UrsClosed c6Env).env.freelist =
      c6Env.freelist ++ c6UrsClosed.chunks.map (·.logno) ∧
    (undoRelease c6UrsClosed c6Env).env.live = c6Env.live.erase c6UrsClosed.id ∧
    (undoRelease c6UrsClosed c6Env).freed = true :=
  ⟨(C6_release c6UrsClosed c6Env).1, (C6_release c6UrsClosed c6Env).2.1,
   ((C6_release c6UrsClosed c6Env).2.2.1 rfl).1,
   ((C6_release c6UrsClosed c6Env).2.2.1 rfl).2.1,
   ((C6_release c6UrsClosed c6Env).2.2.1 rfl).2.2⟩

/-- **C9**: the registered exit callback raises the fatal integrity
error iff the process-wide list of live record sets is non-empty; a
record set that is created, closed and fully released leaves the live
list exactly as it was (so a process whose sets all complete that
lifecycle exits cleanly), while a set created and released without being
closed is still on the live list and forces the abort, as is one never
released at all. -/
theorem C9_proc_exit :
    (∀ env : ProcEnv, AtProcExit_UndoRecordSet env = true ↔ env.live ≠ []) ∧
    (∀ (id : Nat) (typ : UndoRecordSetType) (env : ProcEnv),
        (undoRelease { (undoCreate id typ env).1 with closed := true }
            (undoCreate id typ env).2).env.live = env.live) ∧
    (∀ (id : Nat) (typ : UndoRecordSetType) (env : ProcEnv),
        (undoRelease (undoCreate id typ env).1 (undoCreate id typ env).2).env.live =
            id :: env.live ∧
          AtProcExit_UndoRecordSet
            (undoRelease (undoCreate id typ env).1 (undoCreate id typ env).2).env =
            true) ∧
    (∀ (id : Nat) (typ : UndoRecordSetType) (env : ProcEnv),
        AtProcExit_UndoRecordSet (undoCreate id typ env).2 = true) := by
  refine ⟨?_, ?_, ?_, ?_⟩
  · intro env
    cases h : env.live <;> simp [AtProcExit_UndoRecordSet, h]
  · intro id typ env
    simp [undoRelease, undoCreate, List.erase_cons_head]
  · intro id typ env
    exact ⟨by simp [undoRelease, undoCreate], by simp [undoRelease, undoCreate,
      AtProcExit_UndoRecordSet]⟩
  · intro id typ env
    simp [undoCreate, AtProcExit_UndoRecordSet]

/-- Witness for C9 at concrete inputs: an empty live list exits cleanly,
and a full create–close–release lifecycle restores the empty live
list. -/
theorem C9_proc_exit_witness :
    (undoRelease { (undoCreate 4 .URST_FOO ⟨[], []⟩).1 with closed := true }
        (undoCreate 4 .URST_FOO ⟨[], []⟩).2).env.live = [] ∧
    AtProcExit_UndoRecordSet (undoCreate 4 .URST_FOO ⟨[], []⟩).2 = true :=
  ⟨C9_proc_exit.2.1 4 .URST_FOO ⟨[], []⟩,
   C9_proc_exit.2.2.2 4 .URST_FOO ⟨[], []⟩⟩

theorem getD_set_self {α : Type} (l : List α) (i : Nat) (a d : α) (h : i < l.length) :
    (l.set i a).getD i d = a := by
  rw [List.getD_eq_getElem?_getD, List.getElem?_set_self h]
  rfl

/-- One `append_bytes` call that stays strictly inside the current page:
it rewrites the current buffer's page — stamping `pd_lower` with the
offset at which the write BEGINS — and advances the insert position by
the byte count, leaving the buffer index unchanged. -/
theorem append_bytes_one_page (st : UndoInsertState) (data : List Nat)
    (hne : data ≠ [])
    (hfit : UndoRecPtrGetPageOffset st.insert + data.length < BLCKSZ) :
    (append_bytes st data).buffers =
        st.buffers.set st.buffer_index
          { (st.buffers.getD st.buffer_index ⟨0, 0, 0, zeroPage⟩) with
            page := Page.write
              { (st.buffers.getD st.buffer_index ⟨0, 0, 0, zeroPage⟩).page with
                pd_lower := UndoRecPtrGetPageOffset st.insert }
              (UndoRecPtrGetPageOffset st.insert) data } ∧
    (append_bytes st data).insert = st.insert + data.length ∧
    (append_bytes st data).buffer_index = st.buffer_index := by
  obtain ⟨d0, rest, rfl⟩ : ∃ d0 rest, data = d0 :: rest := by
    cases data with
    | nil => exact absurd rfl hne
    | cons a t => exact ⟨a, t, rfl⟩
  unfold append_bytes
  simp only [List.length_cons]
  simp only [append_go]
  have hmin : min (BLCKSZ - UndoRecPtrGetPageOffset st.insert) (d0 :: rest).length =
      (d0 :: rest).length := by
    simp only [List.length_cons] at hfit ⊢
    omega
  rw [hmin]
  rw [List.take_length]
  have hnb : ¬ (UndoRecPtrGetPageOffset st.insert + (d0 :: rest).length = BLCKSZ) := by
    simp only [List.length_cons] at hfit ⊢
    omega
  rw [if_neg hnb]
  rw [List.drop_length]
  cases hlb : decide (st.last_buffer_index = Int.ofNat st.buffer_index) with
  | true =>
    rw [if_pos (of_decide_eq_true hlb)]
    refine ⟨?_, ?_, ?_⟩ <;> simp [append_go]
  | false =>
    rw [if_neg (of_decide_eq_false hlb)]
    refine ⟨?_, ?_, ?_⟩ <;> simp [append_go]

/-- **C8** counterexample: appending ten bytes at insert position 24
leaves the page's cursor at 24 — the offset where the write began — not
at 34, one past the last byte written as the claim states; replay's
resynchronization from this page therefore yields 24, not the insert
position at the time the write completed. -/
theorem C8_pd_lower_cex :
    (c8After.buffers.getD 0 noBuf).page.pd_lower = 24 ∧
    decide ((c8After.buffers.getD 0 noBuf).page.pd_lower = 24 + 10) = false ∧
    resyncInsertLocation 0 (c8After.buffers.getD 0 noBuf).page = 24 ∧
    decide (resyncInsertLocation 0 (c8After.buffers.getD 0 noBuf).page = 24 + 10) = false := by
  refine ⟨by decide, by decide, by decide, by decide⟩

/-- `pd_lower` after a single in-page append: the offset at which the
append began. -/
theorem append_bytes_pd_lower (st : UndoInsertState) (data : List Nat)
    (hne : data ≠ [])
    (hfit : UndoRecPtrGetPageOffset st.insert + data.length < BLCKSZ)
    (hidx : st.buffer_index = 0) (hlen : 0 < st.buffers.length) :
    ((append_bytes st data).buffers.getD 0 noBuf).page.pd_lower =
      UndoRecPtrGetPageOffset st.insert := by
  have h := append_bytes_one_page st data hne hfit
  rw [h.1, hidx]
  rw [getD_set_self _ _ _ _ hlen]
  rfl

/-- **C8** (amended: after `append_bytes` finishes writing to a page,
the page's cursor `pd_lower` equals the in-page offset at which the most
recent append to that page BEGAN writing — the pre-write offset, not one
past the last byte — so when insert replay resynchronizes from a
restored first page it sets the log's insert pointer to the position at
which that final append started writing, not to the insert position at
the time the image was captured). -/
theorem C8_pd_lower_cursor :
    ∀ (bufs : List Buf) (fbid : Int) (insert : Nat) (data1 data2 : List Nat),
      0 < bufs.length → data1 ≠ [] →
      UndoRecPtrGetPageOffset insert + data1.length + data2.length < BLCKSZ →
      ((append_bytes (begin_append bufs fbid insert) data1).buffers.getD 0
            noBuf).page.pd_lower = UndoRecPtrGetPageOffset insert ∧
      UndoRecPtrGetPageOffset insert ≠ UndoRecPtrGetPageOffset insert + data1.length ∧
      (0 < UndoRecPtrGetPageOffset insert →
        resyncInsertLocation (UndoRecPtrGetBlockNum insert)
            ((append_bytes (begin_append bufs fbid insert) data1).buffers.getD 0
              noBuf).page = insert) ∧
      (data2 ≠ [] →
        ((append_bytes (append_bytes (begin_append bufs fbid insert) data1)
              data2).buffers.getD 0 noBuf).page.pd_lower =
          UndoRecPtrGetPageOffset (insert + data1.length)) := by
  intro bufs fbid insert data1 data2 hlen hne1 hfit
  have hB : BLCKSZ = 8192 := rfl
  have hl1 : 0 < data1.length := List.length_pos.mpr hne1
  have hfit' : insert % 8192 + data1.length + data2.length < 8192 := by
    unfold UndoRecPtrGetPageOffset at hfit
    rw [hB] at hfit
    exact hfit
  have hfit1 : UndoRecPtrGetPageOffset (begin_append bufs fbid insert).insert +
      data1.length < BLCKSZ := by
    show UndoRecPtrGetPageOffset insert + data1.length < BLCKSZ
    unfold UndoRecPtrGetPageOffset
    rw [hB]
    omega
  have hlen0 : 0 < (begin_append bufs fbid insert).buffers.length := hlen
  have hpd1 : ((append_bytes (begin_append bufs fbid insert) data1).buffers.getD 0
      noBuf).page.pd_lower = UndoRecPtrGetPageOffset insert :=
    append_bytes_pd_lower (begin_append bufs fbid insert) data1 hne1 hfit1 rfl hlen0
  have h1 := append_bytes_one_page (begin_append bufs fbid insert) data1 hne1 hfit1
  refine ⟨hpd1, by omega, ?_, ?_⟩
  · intro hoff
    rw [resyncInsertLocation, hpd1]
    rw [if_neg (by omega)]
    unfold UndoRecPtrGetBlockNum UndoRecPtrGetPageOffset
    rw [hB]
    omega
  · intro hne2
    have hoff1 : UndoRecPtrGetPageOffset (append_bytes (begin_append bufs fbid insert)
        data1).insert = UndoRecPtrGetPageOffset insert + data1.length := by
      rw [h1.2.1]
      show (insert + data1.length) % BLCKSZ = UndoRecPtrGetPageOffset insert + data1.length
      unfold UndoRecPtrGetPageOffset
      rw [hB]
      omega
    have hfit2 : UndoRecPtrGetPageOffset (append_bytes (begin_append bufs fbid insert)
        data1).insert + data2.length < BLCKSZ := by
      rw [hoff1]
      exact hfit
    have hidx1 : (append_bytes (begin_append bufs fbid insert) data1).buffer_index = 0 := by
      rw [h1.2.2]
      rfl
    have hlen1 : 0 < (append_bytes (begin_append bufs fbid insert) data1).buffers.length := by
      rw [h1.1]
      rw [List.length_set]
      exact hlen
    have hpd2 := append_bytes_pd_lower (append_bytes (begin_append bufs fbid insert) data1)
      data2 hne2 hfit2 hidx1 hlen1
    rw [hpd2, hoff1]
    unfold UndoRecPtrGetPageOffset
    rw [hB]
    omega

/-- Witness for C8 at the concrete ten-byte append starting at insert
position 24. -/
theorem C8_pd_lower_cursor_witness :
    (c8After.buffers.getD 0 noBuf).page.pd_lower = UndoRecPtrGetPageOffset 24 ∧
    resyncInsertLocation (UndoRecPtrGetBlockNum 24)
        (c8After.buffers.getD 0 noBuf).page = 24 :=
  ⟨(C8_pd_lower_cursor [⟨0, 3, 0, zeroPage⟩] 0 24 [1, 2, 3, 4, 5, 6, 7, 8, 9, 10] []
      (by decide) (by decide) (by decide)).1,
   (C8_pd_lower_cursor [⟨0, 3, 0, zeroPage⟩] 0 24 [1, 2, 3, 4, 5, 6, 7, 8, 9, 10] []
      (by decide) (by decide) (by decide)).2.2.1 (by decide)⟩

/-- **C7** — evaluation of `UndoInsertInRecovery` at the failing input
(its single referenced block reports `BLK_NOTFOUND`, with a 24-byte
insert-tagged header attached): the bookkeeping halves of the claim hold
— the shared insert pointer still advances by header bytes plus payload
length (24 + 5 usable bytes: 24 → 53) and the returned pointer names the
first payload byte (offset 48), exactly as in the non-skipping run — but
the claim's "no page bytes are written at all" does not: the code still
runs the header-opcode `append_bytes` call even though `begin_append`
was skipped (in C, on an uninitialized `UndoInsertState` — undefined
behavior), recorded here as `uninitAppend`; only the external payload
copy is suppressed. -/
theorem C7_recovery_skip_bug :
    c7Skip.scan.skip = true ∧
    c7Skip.finalState = none ∧
    c7Skip.uninitAppend = true ∧
    c7Skip.header_size = 24 ∧
    c7Skip.result = ⟨3, 48⟩ ∧
    c7Skip.insertAfter = 53 ∧
    c7Ok.uninitAppend = false ∧
    c7Ok.result = c7Skip.result ∧
    c7Ok.insertAfter = c7Skip.insertAfter ∧
    c7Skip.scan.assertFailed = false := by
  exact ⟨rfl, rfl, rfl, rfl, by decide, by decide, rfl, by decide, by decide, rfl⟩

/-- The total the reservation sizes against (data plus pending chunk /
type headers). -/
theorem reserveStep_fast (urs : Urs) (ds : Nat) (sl : USlot) (hslot : urs.slot = some sl)
    (h : UndoLogOffsetPlusUsableBytes sl.insert
        (ds + (if urs.need_chunk_header then UndoRecordSetChunkHeaderSize else 0) +
         (if urs.need_type_header then urst_header_size urs.typ else 0)) ≤ urs.recent_end) :
    reserveStep urs ds = .inl (MakeUndoRecPtr sl.logno sl.insert, urs) := by
  simp only [reserveStep, hslot]
  rw [if_pos h]

theorem reserveStep_reread (urs : Urs) (ds : Nat) (sl : USlot) (hslot : urs.slot = some sl)
    (h1 : ¬ (UndoLogOffsetPlusUsableBytes sl.insert
        (ds + (if urs.need_chunk_header then UndoRecordSetChunkHeaderSize else 0) +
         (if urs.need_type_header then urst_header_size urs.typ else 0)) ≤ urs.recent_end))
    (h2 : UndoLogOffsetPlusUsableBytes sl.insert
        (ds + (if urs.need_chunk_header then UndoRecordSetChunkHeaderSize else 0) +
         (if urs.need_type_header then urst_header_size urs.typ else 0)) ≤ sl.endSpace) :
    reserveStep urs ds =
      .inl (MakeUndoRecPtr sl.logno sl.insert, { urs with recent_end := sl.endSpace }) := by
  simp only [reserveStep, hslot]
  rw [if_neg h1, if_pos h2]

theorem reserveStep_extend (urs : Urs) (ds : Nat) (sl : USlot) (hslot : urs.slot = some sl)
    (h1 : ¬ (UndoLogOffsetPlusUsableBytes sl.insert
        (ds + (if urs.need_chunk_header then UndoRecordSetChunkHeaderSize else 0) +
         (if urs.need_type_header then urst_header_size urs.typ else 0)) ≤ urs.recent_end))
    (h2 : ¬ (UndoLogOffsetPlusUsableBytes sl.insert
        (ds + (if urs.need_chunk_header then UndoRecordSetChunkHeaderSize else 0) +
         (if urs.need_type_header then urst_header_size urs.typ else 0)) ≤ sl.endSpace))
    (h3 : UndoLogOffsetPlusUsableBytes sl.insert
        (ds + (if urs.need_chunk_header then UndoRecordSetChunkHeaderSize else 0) +
         (if urs.need_type_header then urst_header_size urs.typ else 0)) ≤ UndoLogMaxSize) :
    reserveStep urs ds =
      .inl (MakeUndoRecPtr sl.logno sl.insert,
        { urs with
            recent_end := sl.endSpace,
            slot := some { sl with
              endSpace := max sl.endSpace (UndoLogOffsetPlusUsableBytes sl.insert
                (ds + (if urs.need_chunk_header then UndoRecordSetChunkHeaderSize else 0) +
                 (if urs.need_type_header then urst_header_size urs.typ else 0))) } }) := by
  simp only [reserveStep, hslot]
  rw [if_neg h1, if_neg h2, if_pos h3]

theorem reserveStep_full (urs : Urs) (ds : Nat) (sl : USlot) (hslot : urs.slot = some sl)
    (h1 : ¬ (UndoLogOffsetPlusUsableBytes sl.insert
        (ds + (if urs.need_chunk_header then UndoRecordSetChunkHeaderSize else 0) +
         (if urs.need_type_header then urst_header_size urs.typ else 0)) ≤ urs.recent_end))
    (h2 : ¬ (UndoLogOffsetPlusUsableBytes sl.insert
        (ds + (if urs.need_chunk_header then UndoRecordSetChunkHeaderSize else 0) +
         (if urs.need_type_header then urst_header_size urs.typ else 0)) ≤ sl.endSpace))
    (h3 : ¬ (UndoLogOffsetPlusUsableBytes sl.insert
        (ds + (if urs.need_chunk_header then UndoRecordSetChunkHeaderSize else 0) +
         (if urs.need_type_header then urst_header_size urs.typ else 0)) ≤ UndoLogMaxSize)) :
    reserveStep urs ds =
      .inr { urs with
               recent_end := sl.endSpace, slot := none,
               markedFull := urs.markedFull ++ [sl.logno] } := by
  simp only [reserveStep, hslot]
  rw [if_neg h1, if_neg h2, if_neg h3]

/-- `reserveStep` never touches the pending-type-header flag, the pinned
buffers or the type tag. -/
theorem reserveStep_preserves (urs : Urs) (ds : Nat) :
    (∀ p urs1, reserveStep urs ds = .inl (p, urs1) →
        urs1.need_type_header = urs.need_type_header ∧ urs1.buffers = urs.buffers ∧
        urs1.typ = urs.typ) ∧
    (∀ urs1, reserveStep urs ds = .inr urs1 →
        urs1.need_type_header = urs.need_type_header ∧ urs1.buffers = urs.buffers ∧
        urs1.typ = urs.typ) := by
  cases hslot : urs.slot with
  | none =>
    have hstep : reserveStep urs ds = .inr urs := by
      simp only [reserveStep, hslot]
    constructor
    · intro p urs1 h
      rw [hstep] at h
      exact Sum.noConfusion h
    · intro urs1 h
      rw [hstep] at h
      cases h
      exact ⟨rfl, rfl, rfl⟩
  | some sl =>
    by_cases hc1 : UndoLogOffsetPlusUsableBytes sl.insert
        (ds + (if urs.need_chunk_header then UndoRecordSetChunkHeaderSize else 0) +
         (if urs.need_type_header then urst_header_size urs.typ else 0)) ≤ urs.recent_end
    · rw [reserveStep_fast urs ds sl hslot hc1]
      constructor
      · intro p urs1 h
        cases h
        exact ⟨rfl, rfl, rfl⟩
      · intro urs1 h
        exact Sum.noConfusion h
    · by_cases hc2 : UndoLogOffsetPlusUsableBytes sl.insert
          (ds + (if urs.need_chunk_header then UndoRecordSetChunkHeaderSize else 0) +
           (if urs.need_type_header then urst_header_size urs.typ else 0)) ≤ sl.endSpace
      · rw [reserveStep_reread urs ds sl hslot hc1 hc2]
        constructor
        · intro p urs1 h
          cases h
          exact ⟨rfl, rfl, rfl⟩
        · intro urs1 h
          exact Sum.noConfusion h
      · by_cases hc3 : UndoLogOffsetPlusUsableBytes sl.insert
            (ds + (if urs.need_chunk_header then UndoRecordSetChunkHeaderSize else 0) +
             (if urs.need_type_header then urst_header_size urs.typ else 0)) ≤ UndoLogMaxSize
        · rw [reserveStep_extend urs ds sl hslot hc1 hc2 hc3]
          constructor
          · intro p urs1 h
            cases h
            exact ⟨rfl, rfl, rfl⟩
          · intro urs1 h
            exact Sum.noConfusion h
        · rw [reserveStep_full urs ds sl hslot hc1 hc2 hc3]
          constructor
          · intro p urs1 h
            exact Sum.noConfusion h
          · intro urs1 h
            cases h
            exact ⟨rfl, rfl, rfl⟩

/-- `reserve_physical_undo` never touches the pending-type-header flag,
the pinned buffers or the type tag. -/
theorem reserve_preserves (ds : Nat) :
    ∀ (supply : List USlot) (urs : Urs) (p : UndoRecPtr) (urs1 : Urs),
      reserve_physical_undo ds supply urs = some (p, urs1) →
      urs1.need_type_header = urs.need_type_header ∧ urs1.buffers = urs.buffers ∧
      urs1.typ = urs.typ := by
  intro supply
  induction supply with
  | nil =>
    intro urs p urs1 h
    rw [reserve_physical_undo] at h
    cases hstep : reserveStep urs ds with
    | inl r =>
      obtain ⟨p0, u0⟩ := r
      rw [hstep] at h
      have h2 : some (p0, u0) = some (p, urs1) := h
      cases h2
      exact (reserveStep_preserves urs ds).1 _ _ hstep
    | inr u =>
      rw [hstep] at h
      exact Option.noConfusion h
  | cons f rest ih =>
    intro urs p urs1 h
    rw [reserve_physical_undo] at h
    cases hstep : reserveStep urs ds with
    | inl r =>
      obtain ⟨p0, u0⟩ := r
      rw [hstep] at h
      have h2 : some (p0, u0) = some (p, urs1) := h
      cases h2
      exact (reserveStep_preserves urs ds).1 _ _ hstep
    | inr u =>
      rw [hstep] at h
      have h2 : reserve_physical_undo ds rest (addChunk u f) = some (p, urs1) := h
      have h3 := ih (addChunk u f) p urs1 h2
      have h4 := (reserveStep_preserves urs ds).2 u hstep
      exact ⟨h3.1.trans h4.1, h3.2.1.trans h4.2.1, h3.2.2.trans h4.2.2⟩

/-- One-step unfolding of `undoAllocate` once the reservation result is
known. -/
theorem undoAllocate_eq (disk : Nat → Nat → Page) (supply : List USlot) (urs : Urs)
    (ds : Nat) (bg : UndoRecPtr) (urs1 : Urs)
    (hres : reserve_physical_undo ds supply urs = some (bg, urs1)) :
    undoAllocate disk supply urs ds =
      (if urs1.buffers.length ≠ 0 then some (.error ())
       else some (.ok (UndoRecPtrPlusUsableBytes bg
            ((if urs1.need_chunk_header then UndoRecordSetChunkHeaderSize else 0) +
             (if urs1.need_type_header then urst_header_size urs1.typ else 0)),
          { urs1 with
              buffers := (pinLoopF
                (ds + (if urs1.need_chunk_header then UndoRecordSetChunkHeaderSize else 0) +
                  (if urs1.need_type_header then urst_header_size urs1.typ else 0))
                disk bg.logno bg.offset
                (ds + (if urs1.need_chunk_header then UndoRecordSetChunkHeaderSize else 0) +
                  (if urs1.need_type_header then urst_header_size urs1.typ else 0)) []) }))) := by
  unfold undoAllocate
  rw [hres]

/-- An `.ok` outcome of `undoAllocate` keeps the pending-type-header flag
and the type tag of the record set. -/
theorem undoAllocate_ok_preserves (disk : Nat → Nat → Page) (supply : List USlot)
    (urs : Urs) (ds : Nat) (p : UndoRecPtr) (urs2 : Urs)
    (h : undoAllocate disk supply urs ds = some (.ok (p, urs2))) :
    urs2.need_type_header = urs.need_type_header ∧ urs2.typ = urs.typ := by
  cases hres : reserve_physical_undo ds supply urs with
  | none =>
    unfold undoAllocate at h
    rw [hres] at h
    exact Option.noConfusion h
  | some r =>
    obtain ⟨bg, urs1⟩ := r
    rw [undoAllocate_eq disk supply urs ds bg urs1 hres] at h
    by_cases hb : urs1.buffers.length ≠ 0
    · rw [if_pos hb] at h
      have h2 : (Except.error () : Except Unit (UndoRecPtr × Urs)) = .ok (p, urs2) :=
        Option.some.inj h
      exact Except.noConfusion h2
    · rw [if_neg hb] at h
      have h2 := Option.some.inj h
      have h3 := Except.ok.inj h2
      have hpres := reserve_preserves ds supply urs bg urs1 hres
      cases h3
      exact ⟨hpres.1, hpres.2.2⟩

/-- `UndoInsert` clears both pending-header flags and reports whether it
emitted each header. -/
theorem undoInsert_flags (urs : Urs) (fbid : Int) (data : List Nat) :
    (undoInsert urs fbid data).urs.need_type_header = false ∧
    (undoInsert urs fbid data).urs.need_chunk_header = false ∧
    (undoInsert urs fbid data).typeHeaderEmitted = urs.need_type_header ∧
    (undoInsert urs fbid data).chunkHeaderEmitted = urs.need_chunk_header ∧
    (undoInsert urs fbid data).urs.typ = urs.typ :=
  ⟨rfl, rfl, rfl, rfl, rfl⟩

/-- `UndoRelease` keeps the pending-type-header flag and the type tag. -/
theorem undoRelease_preserves (urs : Urs) (env : ProcEnv) :
    (undoRelease urs env).urs.need_type_header = urs.need_type_header ∧
    (undoRelease urs env).urs.typ = urs.typ := by
  cases hc : urs.closed <;> simp [undoRelease, hc]

/-- Once the pending-type-header flag is cleared, no later
allocate/insert/release cycle ever emits a type header. -/
theorem runCyclesF_all_false (disk : Nat → Nat → Page) :
    ∀ (cis : List CycleInput) (urs : Urs) (bs : List Bool) (ursF : Urs),
      urs.need_type_header = false →
      runCyclesF disk urs cis = some (bs, ursF) →
      bs = List.replicate bs.length false := by
  intro cis
  induction cis with
  | nil =>
    intro urs bs ursF hf h
    rw [runCyclesF] at h
    have h2 : some (([] : List Bool), urs) = some (bs, ursF) := h
    cases h2
    rfl
  | cons ci rest ih =>
    intro urs bs ursF hf h
    rw [runCyclesF] at h
    cases halloc : undoAllocate disk ci.supply urs ci.data.length with
    | none =>
      rw [halloc] at h
      exact Option.noConfusion h
    | some e =>
      rw [halloc] at h
      cases e with
      | error u => exact Option.noConfusion h
      | ok r =>
        obtain ⟨pp, urs1⟩ := r
        have h' : (match runCyclesF disk
              (undoRelease (undoInsert urs1 0 ci.data).urs ⟨[], []⟩).urs rest with
            | none => none
            | some (bs2, ursF2) =>
              some ((undoInsert urs1 0 ci.data).typeHeaderEmitted :: bs2, ursF2)) =
            some (bs, ursF) := h
        cases hrec : runCyclesF disk
            (undoRelease (undoInsert urs1 0 ci.data).urs ⟨[], []⟩).urs rest with
        | none =>
          rw [hrec] at h'
          exact Option.noConfusion h'
        | some pr =>
          obtain ⟨bs2, ursF2⟩ := pr
          rw [hrec] at h'
          have h2 := Option.some.inj h'
          have hbs : (undoInsert urs1 0 ci.data).typeHeaderEmitted :: bs2 = bs :=
            congrArg Prod.fst h2
          have hem : (undoInsert urs1 0 ci.data).typeHeaderEmitted = false := by
            rw [(undoInsert_flags urs1 0 ci.data).2.2.1]
            rw [(undoAllocate_ok_preserves disk ci.supply urs ci.data.length pp urs1
              halloc).1]
            exact hf
          have hrest : bs2 = List.replicate bs2.length false := by
            apply ih (undoRelease (undoInsert urs1 0 ci.data).urs ⟨[], []⟩).urs bs2 ursF2
            · rw [(undoRelease_preserves (undoInsert urs1 0 ci.data).urs ⟨[], []⟩).1]
              exact (undoInsert_flags urs1 0 ci.data).1
            · exact hrec
          rw [← hbs, hem, hrest]
          simp [List.replicate]

/-- From a freshly created record set, the first allocate/insert/release
cycle emits the type header and every later cycle does not. -/
theorem runCyclesF_first_true (disk : Nat → Nat → Page) (urs : Urs) (ci : CycleInput)
    (cis : List CycleInput) (bs : List Bool) (ursF : Urs)
    (hf : urs.need_type_header = true)
    (h : runCyclesF disk urs (ci :: cis) = some (bs, ursF)) :
    bs = true :: List.replicate (bs.length - 1) false := by
  rw [runCyclesF] at h
  cases halloc : undoAllocate disk ci.supply urs ci.data.length with
  | none =>
    rw [halloc] at h
    exact Option.noConfusion h
  | some e =>
    rw [halloc] at h
    cases e with
    | error u => exact Option.noConfusion h
    | ok r =>
      obtain ⟨pp, urs1⟩ := r
      have h' : (match runCyclesF disk
            (undoRelease (undoInsert urs1 0 ci.data).urs ⟨[], []⟩).urs cis with
          | none => none
          | some (bs2, ursF2) =>
            some ((undoInsert urs1 0 ci.data).typeHeaderEmitted :: bs2, ursF2)) =
          some (bs, ursF) := h
      cases hrec : runCyclesF disk
          (undoRelease (undoInsert urs1 0 ci.data).urs ⟨[], []⟩).urs cis with
      | none =>
        rw [hrec] at h'
        exact Option.noConfusion h'
      | some pr =>
        obtain ⟨bs2, ursF2⟩ := pr
        rw [hrec] at h'
        have h2 := Option.some.inj h'
        have hbs : (undoInsert urs1 0 ci.data).typeHeaderEmitted :: bs2 = bs :=
          congrArg Prod.fst h2
        have hem : (undoInsert urs1 0 ci.data).typeHeaderEmitted = true := by
          rw [(undoInsert_flags urs1 0 ci.data).2.2.1]
          rw [(undoAllocate_ok_preserves disk ci.supply urs ci.data.length pp urs1
            halloc).1]
          exact hf
        have hrest : bs2 = List.replicate bs2.length false := by
          apply runCyclesF_all_false disk cis
            (undoRelease (undoInsert urs1 0 ci.data).urs ⟨[], []⟩).urs bs2 ursF2
          · rw [(undoRelease_preserves (undoInsert urs1 0 ci.data).urs ⟨[], []⟩).1]
            exact (undoInsert_flags urs1 0 ci.data).1
          · exact hrec
        rw [← hbs, hem]
        simp only [List.length_cons, Nat.add_sub_cancel]
        rw [← hrest]

/-- **C5**: the physical-space reservation routine behaves as the claim
states.  With an active backing log it sizes `total = requested bytes +
chunk header (if pending) + type header (if pending)`: if the new insert
position fits under the cached end-of-space watermark it returns the
current insert position with the record set untouched; otherwise it
re-reads the authoritative end (updating the cache) and retries the fit
check; otherwise, when the new insert position does not exceed the
per-log maximum, it extends the log and returns; otherwise it marks the
log full, clears the active-log reference, and — drawing a brand-new
log — appends a chunk whose header offset is the new log's insert
position with both straddling-buffer indices absent (−1), sets the
pending-chunk-header flag, and retries.  The routine never changes the
pending-type-header flag, and across any number of
allocate/insert/release cycles the type header is emitted exactly once,
by the first insertion (hence into the record set's first chunk). -/
theorem C5_reserve_physical :
    (∀ (ds : Nat) (supply : List USlot) (urs : Urs) (sl : USlot),
      urs.slot = some sl →
      (UndoLogOffsetPlusUsableBytes sl.insert
          (ds + (if urs.need_chunk_header then UndoRecordSetChunkHeaderSize else 0) +
           (if urs.need_type_header then urst_header_size urs.typ else 0)) ≤
          urs.recent_end →
        reserve_physical_undo ds supply urs =
          some (MakeUndoRecPtr sl.logno sl.insert, urs)) ∧
      (¬ (UndoLogOffsetPlusUsableBytes sl.insert
          (ds + (if urs.need_chunk_header then UndoRecordSetChunkHeaderSize else 0) +
           (if urs.need_type_header then urst_header_size urs.typ else 0)) ≤
          urs.recent_end) →
       UndoLogOffsetPlusUsableBytes sl.insert
          (ds + (if urs.need_chunk_header then UndoRecordSetChunkHeaderSize else 0) +
           (if urs.need_type_header then urst_header_size urs.typ else 0)) ≤
          sl.endSpace →
        reserve_physical_undo ds supply urs =
          some (MakeUndoRecPtr sl.logno sl.insert,
            { urs with recent_end := sl.endSpace })) ∧
      (¬ (UndoLogOffsetPlusUsableBytes sl.insert
          (ds + (if urs.need_chunk_header then UndoRecordSetChunkHeaderSize else 0) +
           (if urs.need_type_header then urst_header_size urs.typ else 0)) ≤
          urs.recent_end) →
       ¬ (UndoLogOffsetPlusUsableBytes sl.insert
          (ds + (if urs.need_chunk_header then UndoRecordSetChunkHeaderSize else 0) +
           (if urs.need_type_header then urst_header_size urs.typ else 0)) ≤
          sl.endSpace) →
       UndoLogOffsetPlusUsableBytes sl.insert
          (ds + (if urs.need_chunk_header then UndoRecordSetChunkHeaderSize else 0) +
           (if urs.need_type_header then urst_header_size urs.typ else 0)) ≤
          UndoLogMaxSize →
        reserve_physical_undo ds supply urs =
          some (MakeUndoRecPtr sl.logno sl.insert,
            { urs with
                recent_end := sl.endSpace,
                slot := some { sl with
                  endSpace := max sl.endSpace (UndoLogOffsetPlusUsableBytes sl.insert
                    (ds +
                     (if urs.need_chunk_header then UndoRecordSetChunkHeaderSize else 0) +
                     (if urs.need_type_header then urst_header_size urs.typ else 0))) } })) ∧
      (∀ (f : USlot) (rest : List USlot), supply = f :: rest →
       ¬ (UndoLogOffsetPlusUsableBytes sl.insert
          (ds + (if urs.need_chunk_header then UndoRecordSetChunkHeaderSize else 0) +
           (if urs.need_type_header then urst_header_size urs.typ else 0)) ≤
          urs.recent_end) →
       ¬ (UndoLogOffsetPlusUsableBytes sl.insert
          (ds + (if urs.need_chunk_header then UndoRecordSetChunkHeaderSize else 0) +
           (if urs.need_type_header then urst_header_size urs.typ else 0)) ≤
          sl.endSpace) →
       ¬ (UndoLogOffsetPlusUsableBytes sl.insert
          (ds + (if urs.need_chunk_header then UndoRecordSetChunkHeaderSize else 0) +
           (if urs.need_type_header then urst_header_size urs.typ else 0)) ≤
          UndoLogMaxSize) →
        reserve_physical_undo ds supply urs =
          reserve_physical_undo ds rest
            (addChunk { urs with
                recent_end := sl.endSpace, slot := none,
                markedFull := urs.markedFull ++ [sl.logno] } f))) ∧
    (∀ (urs : Urs) (f : USlot),
      (addChunk urs f).need_chunk_header = true ∧
      (addChunk urs f).recent_end = 0 ∧
      (addChunk urs f).slot = some f ∧
      (addChunk urs f).chunks = urs.chunks ++
        [{ logno := f.logno, chunk_header_offset := f.insert,
           chunk_header_buffer_index := (-1, -1) }]) ∧
    (∀ (ds : Nat) (supply : List USlot) (urs : Urs) (p : UndoRecPtr) (urs1 : Urs),
      reserve_physical_undo ds supply urs = some (p, urs1) →
      urs1.need_type_header = urs.need_type_header) ∧
    (∀ (disk : Nat → Nat → Page) (urs : Urs) (ci : CycleInput)
        (cis : List CycleInput) (bs : List Bool),
      urs.need_type_header = true →
      (runCyclesF disk urs (ci :: cis)).map Prod.fst = some bs →
      bs = true :: List.replicate (bs.length - 1) false) := by
  refine ⟨?_, ?_, ?_, ?_⟩
  · intro ds supply urs sl hslot
    refine ⟨?_, ?_, ?_, ?_⟩
    · intro h1
      rw [reserve_physical_undo, reserveStep_fast urs ds sl hslot h1]
    · intro h1 h2
      rw [reserve_physical_undo, reserveStep_reread urs ds sl hslot h1 h2]
    · intro h1 h2 h3
      rw [reserve_physical_undo, reserveStep_extend urs ds sl hslot h1 h2 h3]
    · intro f rest hsup h1 h2 h3
      subst hsup
      rw [reserve_physical_undo, reserveStep_full urs ds sl hslot h1 h2 h3]
  · intro urs f
    exact ⟨rfl, rfl, rfl, rfl⟩
  · intro ds supply urs p urs1 h
    exact (reserve_preserves ds supply urs p urs1 h).1
  · intro disk urs ci cis bs hf hmap
    cases hrun : runCyclesF disk urs (ci :: cis) with
    | none =>
      rw [hrun] at hmap
      exact Option.noConfusion hmap
    | some pr =>
      obtain ⟨bs0, ursF0⟩ := pr
      rw [hrun] at hmap
      have hbs : bs0 = bs := Option.some.inj hmap
      subst hbs
      exact runCyclesF_first_true disk urs ci cis bs0 ursF0 hf hrun

/-- Witness for C5: the concrete fast path returns the active log's
insert position unchanged, and a concrete two-cycle run from a fresh
record set emits the type header exactly in its first cycle. -/
theorem C5_reserve_physical_witness :
    reserve_physical_undo 10 [] c5FastUrs = some (MakeUndoRecPtr 7 24, c5FastUrs) ∧
    (runCyclesF c5Disk (undoCreate 1 .URST_FOO ⟨[], []⟩).1
        [⟨[⟨7, 24, 1048576⟩], [1, 2, 3]⟩, ⟨[], [4, 5]⟩]).map Prod.fst =
      some [true, false] ∧
    ([true, false] : List Bool) =
      true :: List.replicate (([true, false] : List Bool).length - 1) false :=
  ⟨((C5_reserve_physical.1 10 [] c5FastUrs ⟨7, 24, 1048576⟩ rfl).1 (by decide)),
   rfl,
   C5_reserve_physical.2.2.2 c5Disk (undoCreate 1 .URST_FOO ⟨[], []⟩).1
     ⟨[⟨7, 24, 1048576⟩], [1, 2, 3]⟩ [⟨[], [4, 5]⟩] [true, false] rfl rfl⟩

theorem pinLoopF_length_le (disk : Nat → Nat → Page) (logno urpOff : Nat) :
    ∀ (fuel total : Nat) (acc : List Buf),
      acc.length ≤ (pinLoopF fuel disk logno urpOff total acc).length := by
  intro fuel
  induction fuel with
  | zero =>
    intro total acc
    rw [pinLoopF]
  | succ n ih =>
    intro total acc
    rw [pinLoopF]
    by_cases h : total = 0
    · rw [if_pos h]
    · rw [if_neg h]
      have hstep : acc.length + 1 =
          (acc ++ [({ handle := 0, logno := logno,
                      block := UndoRecPtrGetBlockNum urpOff,
                      page := if UndoRecPtrGetPageOffset urpOff = UndoLogBlockHeaderSize
                              then pageInit
                              else disk logno (UndoRecPtrGetBlockNum urpOff) } : Buf)]).length := by
        simp
      calc acc.length ≤ acc.length + 1 := by omega
        _ ≤ _ := hstep.le.trans (ih _ _)

/-- With a positive total, `UndoAllocate`'s pinning loop pins at least
one buffer. -/
theorem pinLoopF_length_pos (disk : Nat → Nat → Page) (logno urpOff total : Nat)
    (h : 0 < total) :
    0 < (pinLoopF total disk logno urpOff total []).length := by
  obtain ⟨t, rfl⟩ : ∃ t, total = t + 1 := ⟨total - 1, by omega⟩
  rw [pinLoopF]
  rw [if_neg (by omega)]
  refine lt_of_lt_of_le ?_ (pinLoopF_length_le disk logno urpOff t _ _)
  simp

/-- **C10** (amended: `UndoAllocate` does assert an empty pinned-buffer
set on entry, the assertion holds under the allocate/insert/release
discipline since `UndoRelease` resets the pinned set, and a second
`UndoAllocate` without an intervening `UndoRelease` violates it whenever
the first of the two calls pinned at least one buffer — which is the
case exactly when its total size (data plus pending headers) was
positive; a zero-total `UndoAllocate` pins nothing, and the next call's
assertion still holds). -/
theorem C10_allocate_assert :
    (∀ (disk : Nat → Nat → Page) (supply : List USlot) (urs : Urs) (ds : Nat)
        (bg : UndoRecPtr) (urs1 : Urs),
        reserve_physical_undo ds supply urs = some (bg, urs1) →
        urs.buffers = [] →
        (undoAllocate disk supply urs ds).map exOk = some true) ∧
    (∀ (disk : Nat → Nat → Page) (supply : List USlot) (urs : Urs) (ds : Nat)
        (bg : UndoRecPtr) (urs1 : Urs),
        reserve_physical_undo ds supply urs = some (bg, urs1) →
        0 < urs.buffers.length →
        (undoAllocate disk supply urs ds).map exOk = some false) ∧
    (∀ (urs : Urs) (env : ProcEnv), (undoRelease urs env).urs.buffers = []) ∧
    (∀ (disk : Nat → Nat → Page) (supply : List USlot) (urs : Urs) (ds : Nat)
        (bg : UndoRecPtr) (urs1 : Urs) (p2 : UndoRecPtr) (u2 : Urs),
        reserve_physical_undo ds supply urs = some (bg, urs1) →
        0 < ds + (if urs1.need_chunk_header then UndoRecordSetChunkHeaderSize else 0) +
            (if urs1.need_type_header then urst_header_size urs1.typ else 0) →
        undoAllocate disk supply urs ds = some (.ok (p2, u2)) →
        0 < u2.buffers.length) ∧
    (∀ (disk : Nat → Nat → Page) (supply : List USlot) (urs : Urs) (ds : Nat)
        (bg : UndoRecPtr) (urs1 : Urs) (p2 : UndoRecPtr) (u2 : Urs),
        reserve_physical_undo ds supply urs = some (bg, urs1) →
        ds + (if urs1.need_chunk_header then UndoRecordSetChunkHeaderSize else 0) +
            (if urs1.need_type_header then urst_header_size urs1.typ else 0) = 0 →
        undoAllocate disk supply urs ds = some (.ok (p2, u2)) →
        u2.buffers = []) := by
  refine ⟨?_, ?_, ?_, ?_, ?_⟩
  · intro disk supply urs ds bg urs1 hres hempty
    rw [undoAllocate_eq disk supply urs ds bg urs1 hres]
    have hb : urs1.buffers = [] :=
      ((reserve_preserves ds supply urs bg urs1 hres).2.1).trans hempty
    rw [if_neg (by rw [hb]; simp)]
    rfl
  · intro disk supply urs ds bg urs1 hres hpos
    rw [undoAllocate_eq disk supply urs ds bg urs1 hres]
    have hb : urs1.buffers = urs.buffers :=
      (reserve_preserves ds supply urs bg urs1 hres).2.1
    rw [if_pos (by rw [hb]; omega)]
    rfl
  · intro urs env
    cases hc : urs.closed <;> simp [undoRelease, hc]
  · intro disk supply urs ds bg urs1 p2 u2 hres htot halloc
    rw [undoAllocate_eq disk supply urs ds bg urs1 hres] at halloc
    by_cases hb : urs1.buffers.length ≠ 0
    · rw [if_pos hb] at halloc
      exact Except.noConfusion (Option.some.inj halloc)
    · rw [if_neg hb] at halloc
      have h3 := Except.ok.inj (Option.some.inj halloc)
      cases h3
      exact pinLoopF_length_pos disk bg.logno bg.offset _ htot
  · intro disk supply urs ds bg urs1 p2 u2 hres htot halloc
    rw [undoAllocate_eq disk supply urs ds bg urs1 hres] at halloc
    by_cases hb : urs1.buffers.length ≠ 0
    · rw [if_pos hb] at halloc
      exact Except.noConfusion (Option.some.inj halloc)
    · rw [if_neg hb] at halloc
      have h3 := Except.ok.inj (Option.some.inj halloc)
      cases h3
      show pinLoopF (ds + _ + _) disk bg.logno bg.offset (ds + _ + _) [] = []
      rw [htot]
      rw [pinLoopF]

/-- **C10** counterexample: after the trace create → allocate(10) →
insert → release → allocate(0), a further `UndoAllocate` (call 5)
follows `UndoAllocate` (call 4) with no `UndoRelease` in between, and
the assertion nevertheless holds — call 4 had total size 0 and pinned
nothing — so "calling UndoAllocate twice without an intervening
UndoRelease violates it" fails; by contrast the same second call right
after call 1 (which pinned a buffer) does violate the assertion. -/
theorem C10_allocate_assert_cex :
    c10A2.map exOk = some true ∧
    c10U4.buffers = ([] : List Buf) ∧
    c10A3.map exOk = some true ∧
    c10A1b.map exOk = some false :=
  ⟨rfl, rfl, rfl, rfl⟩

/-- Witness for C10 at the concrete trace: with an empty pinned set the
assertion passes, and right after a buffer-pinning allocation it
fails. -/
theorem C10_allocate_assert_witness :
    (undoAllocate c5Disk [] c10U4 5).map exOk = some true ∧
    (undoAllocate c5Disk [] c10U1 5).map exOk = some false :=
  ⟨C10_allocate_assert.1 c5Disk [] c10U4 5 _ _ rfl rfl,
   C10_allocate_assert.2.1 c5Disk [] c10U1 5 _ _ rfl (by decide)⟩
